import Mathlib

/-
  Verification development for the generator-expression evaluation engine in
  Source/cmGeneratorExpressionEvaluator.cxx.

  The evaluator is shallowly embedded: the AST (text leaves and compound
  `$<IDENT:p,...>` nodes), the evaluation context, the node registry and every
  built-in operator of that translation unit are translated into executable
  Lean definitions.  External interfaces the translation unit merely calls
  (the target/property store, the policy store, the on-the-fly parser, the
  DAG checker internals) are modelled as read-only fields of a `World`
  structure; where their behaviour matters it is modelled from the design
  document and marked as such.

  Recursion through synthesized sub-expressions (the `TARGET_PROPERTY`
  transitive descent) is made total with an explicit fuel parameter: every
  recursive re-entry into `evaluate` consumes one unit of fuel, and at fuel 0
  evaluation returns the empty string with the context unchanged.
-/

namespace CMakeGenExpr

/-! ## Small string utilities (cmSystemTools / cmsys helpers) -/

/-- ASCII lower-casing of one character (`tolower` on the ASCII range). -/
def asciiLower (c : Char) : Char :=
  if 'A' ≤ c ∧ c ≤ 'Z' then Char.ofNat (c.toNat + 32) else c

/-- ASCII upper-casing of one character (`toupper` on the ASCII range). -/
def asciiUpper (c : Char) : Char :=
  if 'a' ≤ c ∧ c ≤ 'z' then Char.ofNat (c.toNat - 32) else c

/-- Modelled from the spec: `cmSystemTools::LowerCase` (§4.3 "map ASCII only"). -/
def lowerCaseString (s : String) : String := String.mk (s.data.map asciiLower)

/-- Modelled from the spec: `cmSystemTools::UpperCase` (§4.3 "map ASCII only"). -/
def upperCaseString (s : String) : String := String.mk (s.data.map asciiUpper)

/-- `cmsysString_strcasecmp(a, b) == 0`: ASCII case-insensitive equality. -/
def strCaseEq (a b : String) : Bool := lowerCaseString a == lowerCaseString b

/-- The character class of the `^[A-Za-z0-9_]*$` validators. -/
def isIdentChar (c : Char) : Bool := c.isAlphanum || c == '_'

/-- `cmsys::RegularExpression("^[A-Za-z0-9_]*$").find s` (whole-string match,
    the empty string matches). -/
def matchIdentRegex (s : String) : Bool := s.data.all isIdentChar

/-- `cmsys::RegularExpression("^[A-Za-z0-9_]+$").find s` (at least one char). -/
def matchPropRegex (s : String) : Bool := !s.data.isEmpty && s.data.all isIdentChar

/-- The `^[0-9\.]*$` validator of the compiler-version nodes. -/
def matchVersionRegex (s : String) : Bool := s.data.all (fun c => c.isDigit || c == '.')

/-- Split on `;`, keeping empty parts (the splitting underlying the list
    helpers below). -/
def splitSemis (s : String) : List String :=
  go s.data []
where
  go : List Char → List Char → List String
    | [], acc => [String.mk acc.reverse]
    | c :: rest, acc =>
      if c = ';' then String.mk acc.reverse :: go rest []
      else go rest (c :: acc)

/-- Modelled from the spec: `cmSystemTools::ExpandListArgument` as used here
    (§4.3: "split `list` on `;`"); empty elements are dropped. -/
def expandListArgument (s : String) : List String :=
  (splitSemis s).filter (fun e => e ≠ "")

/-- Modelled from the spec: `cmGeneratorExpression::StripEmptyListElements`
    (§4.6 step 7: "Strip empty list elements"). -/
def stripEmptyListElements (s : String) : String :=
  String.intercalate ";" ((splitSemis s).filter (fun e => e ≠ ""))

/-- Modelled from the spec: `cmSystemTools::IsOff` (§4.3, the `$<BOOL:s>`
    off-equivalents, compared case-insensitively). -/
def isOff (s : String) : Bool :=
  let u := upperCaseString s
  u == "" || u == "0" || u == "OFF" || u == "NO" || u == "FALSE" || u == "N" ||
    u == "IGNORE" || u == "NOTFOUND" || List.isSuffixOf "-NOTFOUND".data u.data

/-- Modelled from the spec: `cmSystemTools::MakeCidentifier` (§4.3: each byte
    not in `[A-Za-z0-9_]` becomes `_`; a leading digit gets `_` prepended). -/
def makeCIdentifier (s : String) : String :=
  let mapped := String.map (fun c => if isIdentChar c then c else '_') s
  match s.data with
  | c :: _ => if c.isDigit then "_" ++ mapped else mapped
  | [] => mapped

/-- Modelled from the spec: version strings are dot-separated non-negative
    integer components; a non-numeric component reads as 0 (§4.3). -/
def versionComponents (s : String) : List Nat :=
  (s.splitOn ".").map (fun c => c.toNat?.getD 0)

/-- Lexicographic component comparison, missing components read as 0. -/
def versionListLess : List Nat → List Nat → Bool
  | [], [] => false
  | [], b :: bs => if 0 < b then true else versionListLess [] bs
  | a :: as, [] => if 0 < a then false else versionListLess as []
  | a :: as, b :: bs => if a < b then true else if b < a then false else versionListLess as bs

/-- `cmSystemTools::VersionCompare(OP_LESS, a, b)`. -/
def versionLess (a b : String) : Bool :=
  versionListLess (versionComponents a) (versionComponents b)

/-- `cmSystemTools::VersionCompare(OP_GREATER, a, b)`. -/
def versionGreater (a b : String) : Bool :=
  versionListLess (versionComponents b) (versionComponents a)

/-- `cmSystemTools::VersionCompare(OP_EQUAL, a, b)`. -/
def versionEqual (a b : String) : Bool :=
  !versionLess a b && !versionGreater a b

/-- `cmSystemTools::GetFilenameName`: the component after the last slash or
    backslash. -/
def filenameName (s : String) : String :=
  String.mk ((s.data.reverse.takeWhile (fun c => c ≠ '/' ∧ c ≠ '\\')).reverse)

/-- `cmSystemTools::GetFilenamePath`: everything before the last slash or
    backslash (empty when there is none). -/
def filenamePath (s : String) : String :=
  let rev := s.data.reverse.dropWhile (fun c => c ≠ '/' ∧ c ≠ '\\')
  String.mk ((rev.drop 1).reverse)

/-! ## A model of `strtol` as used by `EqualNode::Evaluate`

`strtol(p, &pEnd, base)` with the LP64 `long` range.  The caller checks
`pEnd == p || *pEnd != 0 || errno == ERANGE`; we expose exactly those
observations: the remaining characters after the subject sequence, whether a
conversion was performed, and whether the value overflowed. -/

def longMaxInt : Int := 9223372036854775807
def longMinInt : Int := -9223372036854775808

/-- The whitespace class skipped by `strtol` (C `isspace`). -/
def isSpaceChar (c : Char) : Bool :=
  c == ' ' || c == '\t' || c == '\n' || c == '\r' ||
    c == Char.ofNat 11 || c == Char.ofNat 12

/-- Value of one character as a digit (0-9, a-z, A-Z), if any. -/
def digitValue (c : Char) : Option Nat :=
  if '0' ≤ c ∧ c ≤ '9' then some (c.toNat - '0'.toNat)
  else if 'a' ≤ c ∧ c ≤ 'z' then some (c.toNat - 'a'.toNat + 10)
  else if 'A' ≤ c ∧ c ≤ 'Z' then some (c.toNat - 'A'.toNat + 10)
  else none

/-- Consume digits valid in `base`, accumulating the magnitude. Returns the
    accumulated value, the rest, and whether any digit was consumed. -/
def digitsLoop (base : Nat) : Nat → Bool → List Char → Nat × List Char × Bool
  | acc, any, [] => (acc, [], any)
  | acc, any, c :: rest =>
    match digitValue c with
    | some d => if d < base then digitsLoop base (acc * base + d) true rest else (acc, c :: rest, any)
    | none => (acc, c :: rest, any)

structure StrtolResult where
  value : Int
  rest : List Char
  converted : Bool
  rangeError : Bool
deriving Repr, DecidableEq

/-- `strtol` on a character list: skip whitespace, optional sign, the
    `0x`/`0X` base marker (base 16 or 0), octal detection for base 0, digit
    accumulation, and clamping to `long` with a range-error flag.  When no
    digit is consumed, no conversion is performed and `rest` is the whole
    input (`*endptr = nptr`). -/
def strtolCore (s : List Char) (base : Nat) : StrtolResult :=
  let afterWs := s.dropWhile isSpaceChar
  let (neg, afterSign) :=
    match afterWs with
    | '-' :: r => (true, r)
    | '+' :: r => (false, r)
    | _ => (false, afterWs)
  let (effBase, afterBase) :=
    if base = 16 ∨ base = 0 then
      match afterSign with
      | '0' :: x :: r =>
        if (x == 'x' || x == 'X') &&
            (match r with
             | c :: _ => (digitValue c).elim false (fun d => d < 16)
             | [] => false) then
          (16, r)
        else if base = 0 then (8, '0' :: x :: r) else (16, '0' :: x :: r)
      | other =>
        if base = 0 then
          (match other with
           | '0' :: r => (8, '0' :: r)
           | o => (10, o))
        else (16, other)
    else (base, afterSign)
  let (mag, rest, any) := digitsLoop effBase 0 false afterBase
  if !any then { value := 0, rest := s, converted := false, rangeError := false }
  else
    let v : Int := if neg then -(mag : Int) else (mag : Int)
    if v > longMaxInt then { value := longMaxInt, rest := rest, converted := true, rangeError := true }
    else if v < longMinInt then { value := longMinInt, rest := rest, converted := true, rangeError := true }
    else { value := v, rest := rest, converted := true, rangeError := false }

/-- List form of `cmHasLiteralPrefix`. -/
def litPfx (s pre : List Char) : Bool := List.isPrefixOf pre s

/-! ## Data model -/

/-- `cmPolicies::PolicyStatus`. -/
inductive PolicyStatus where
  | old | warn | new | requiredIfUsed | requiredAlways
deriving Repr, DecidableEq

/-- `cmTarget::TargetType`, in declaration order (the artifact nodes compare
    with `>= OBJECT_LIBRARY`); the member names are modelled from the spec's
    target-type list (§6) plus the utility kinds the comparison skips over. -/
inductive TargetType where
  | executable | staticLibrary | sharedLibrary | moduleLibrary
  | objectLibrary | utility | globalTarget | interfaceLibrary | unknownLibrary
deriving Repr, DecidableEq

/-- Numeric value of a target type for the `>=` comparison in the artifact
    nodes. -/
def TargetType.code : TargetType → Nat
  | .executable => 0
  | .staticLibrary => 1
  | .sharedLibrary => 2
  | .moduleLibrary => 3
  | .objectLibrary => 4
  | .utility => 5
  | .globalTarget => 6
  | .interfaceLibrary => 7
  | .unknownLibrary => 8

/-- Result of `cmGeneratorExpressionDAGChecker::Check()`. -/
inductive DagCheckResult where
  | selfReference | cyclicReference | alreadySeen | dag
deriving Repr, DecidableEq

/-- Modelled from the spec: a DAG frame holds its parent, the
    (target, property) pair, and the role bits
    evaluating-link-libraries / evaluating-sources / transitive-properties-only
    together with the top target of the chain (§3 "DAG frame").  The methods
    of the real checker read the role off the top of the chain, so frames
    created during property descent inherit the role bits of their parent. -/
inductive DagChecker where
  | mk (target : String) (property : String) (parent : Option DagChecker)
       (evaluatingLinkLibraries : Bool) (evaluatingSources : Bool)
       (transitivePropertiesOnly : Bool) (topTarget : String)

def DagChecker.target : DagChecker → String
  | .mk t _ _ _ _ _ _ => t

def DagChecker.property : DagChecker → String
  | .mk _ p _ _ _ _ _ => p

def DagChecker.parent : DagChecker → Option DagChecker
  | .mk _ _ pa _ _ _ _ => pa

def DagChecker.evaluatingLinkLibraries : DagChecker → Bool
  | .mk _ _ _ ll _ _ _ => ll

def DagChecker.evaluatingSources : DagChecker → Bool
  | .mk _ _ _ _ es _ _ => es

def DagChecker.transitivePropertiesOnly : DagChecker → Bool
  | .mk _ _ _ _ _ tp _ => tp

def DagChecker.topTarget : DagChecker → String
  | .mk _ _ _ _ _ _ tt => tt

/-- The frame pushed by `TargetPropertyNode::Evaluate` (construction of
    `cmGeneratorExpressionDAGChecker dagChecker(...)`): the new
    (target, property) pair on top of the parent, role bits inherited. -/
def newDagChecker (tgt prop : String) : Option DagChecker → DagChecker
  | none => .mk tgt prop none false false false tgt
  | some d => .mk tgt prop (some d) d.evaluatingLinkLibraries d.evaluatingSources
      d.transitivePropertiesOnly d.topTarget

/-- `dagChecker && dagChecker->EvaluatingLinkLibraries()`: the
    evaluating-link-libraries role of an optional checker chain. -/
def dagEvaluatingLinkLibraries : Option DagChecker → Bool
  | some d => d.evaluatingLinkLibraries
  | none => false


/-- The AST of a compiled generator expression
    (`cmGeneratorExpressionEvaluator`): text leaves and compound
    `$<identifier:p1,p2,...>` nodes with identifier children and
    parameter-children groups. -/
inductive GenExEvaluator where
  | text (s : String)
  | content (identifierChildren : List GenExEvaluator)
            (paramChildren : List (List GenExEvaluator))

/-- `GetType() == cmGeneratorExpressionEvaluator::Text`. -/
def GenExEvaluator.isText : GenExEvaluator → Bool
  | .text _ => true
  | .content _ _ => false

/-- `cmGeneratorExpressionContext`: the per-evaluation mutable state.
    `messages` collects the diagnostics issued through the host (newest
    first), `warnings` counts author warnings, and `cscEvents` is a ghost
    instrumentation counter: it is incremented exactly where the source
    executes `context->HadContextSensitiveCondition = true` at one of its
    primary sites (ConfigurationNode, ConfigurationTestNode, TargetPolicyNode,
    and the link-interface-dependent property consultations inside
    TargetPropertyNode), and a propagation site adds the events of the
    sub-context whose flag it copies. -/
structure Ctx where
  config : String
  headTarget : Option String
  currentTarget : Option String
  quiet : Bool
  evaluateForBuildsystem : Bool
  hadError : Bool
  hadContextSensitiveCondition : Bool
  allTargets : List String
  dependTargets : List String
  seenTargetProperties : List String
  maxLanguageStandard : List ((String × String) × String)
  messages : List String
  warnings : Nat
  cscEvents : Nat
deriving Repr, DecidableEq

/-- `reportError`: sets `HadError`; unless `Quiet`, issues a FATAL_ERROR
    message through the host. -/
def reportError (ctx : Ctx) (msg : String) : Ctx :=
  let ctx := { ctx with hadError := true }
  if ctx.quiet then ctx else { ctx with messages := msg :: ctx.messages }

/-- `context->HadContextSensitiveCondition = true` at a primary site
    (with the ghost event counter
    incremented in lock-step). -/
def setCSC (ctx : Ctx) : Ctx :=
  { ctx with hadContextSensitiveCondition := true, cscEvents := ctx.cscEvents + 1 }

/-- `if (cge->GetHadContextSensitiveCondition()) context->HadContextSensitiveCondition = true;`
    - the propagation of the flag from a sub-evaluation context, carrying the
    sub-context's ghost events along. -/
def propagateCSC (ctx sub : Ctx) : Ctx :=
  if sub.hadContextSensitiveCondition then
    { ctx with hadContextSensitiveCondition := true,
               cscEvents := ctx.cscEvents + sub.cscEvents }
  else ctx

/-- An author warning issued through the host (`IssueMessage(AUTHOR_WARNING, ...)`). -/
def addWarning (ctx : Ctx) : Ctx := { ctx with warnings := ctx.warnings + 1 }

/-- `context->AllTargets.insert(target)`. -/
def addAllTarget (ctx : Ctx) (t : String) : Ctx :=
  if ctx.allTargets.contains t then ctx else { ctx with allTargets := t :: ctx.allTargets }

/-- `context->DependTargets.insert(target)`. -/
def addDependTarget (ctx : Ctx) (t : String) : Ctx :=
  if ctx.dependTargets.contains t then ctx else { ctx with dependTargets := t :: ctx.dependTargets }

/-- `context->SeenTargetProperties.insert(propertyName)`. -/
def addSeenTargetProperty (ctx : Ctx) (p : String) : Ctx :=
  if ctx.seenTargetProperties.contains p then ctx
  else { ctx with seenTargetProperties := p :: ctx.seenTargetProperties }

/-- `context->MaxLanguageStandard[target][lang] = l`. -/
def setMaxLanguageStandard (ctx : Ctx) (tgt lang l : String) : Ctx :=
  { ctx with maxLanguageStandard :=
      ((tgt, lang), l) :: (ctx.maxLanguageStandard.filter (fun e => e.1 ≠ (tgt, lang))) }

/-- The read-only external interfaces the translation unit consumes
    (target store, definition store, policies, feature knowledge, the
    out-of-scope parser and the DAG-checker decision): one function field per
    query of spec §6.  Targets and generator targets are identified by name. -/
structure World where
  getSafeDefinition : String → String
  getDefinition : String → Option String
  policyStatusCMP0043 : PolicyStatus
  policyStatusCMP0044 : PolicyStatus
  isAlias : String → Bool
  findTargetToUse : String → Option String
  findGeneratorTargetToUse : String → Option String
  isValidTargetName : String → Bool
  targetType : String → TargetType
  isImported : String → Bool
  isDLLPlatform : String → Bool
  isLinkable : String → Bool
  hasImportLibrary : String → Bool
  linkLanguagePropagatesToDependents : String → Bool
  getLinkerLanguage : String → String → String
  getProperty : String → String → Option String
  getMappedConfig : String → String → Bool
  getDirectory : String → String → String
  getSOName : String → String → String
  getFullPath : String → String → Bool → Bool → String
  transitivePropertyTargets : String → String → String → List String
  linkImplementationLibraries : String → String → Option (List (Option String))
  isLinkInterfaceDependentBoolProperty : String → String → String → Bool
  getLinkInterfaceDependentBoolProperty : String → String → String → Bool
  isLinkInterfaceDependentStringProperty : String → String → String → Bool
  getLinkInterfaceDependentStringProperty : String → String → String → Option String
  isLinkInterfaceDependentNumberMinProperty : String → String → String → Bool
  getLinkInterfaceDependentNumberMinProperty : String → String → String → Option String
  isLinkInterfaceDependentNumberMaxProperty : String → String → String → Bool
  getLinkInterfaceDependentNumberMaxProperty : String → String → String → Option String
  getObjectSources : String → String → List String
  computeObjectFilename : String → String → String
  objectDirectory : String → String
  compileFeatureKnown : String → String → Except String String
  compileFeaturesAvailable : String → Except String String
  haveFeatureAvailable : String → String → String → Bool
  transitiveBase : List String
  targetPolicies : List String
  policyStatusForTarget : String → String → PolicyStatus
  dagCheck : DagChecker → DagCheckResult
  parse : String → List GenExEvaluator
  getPolicyWarning : String → String

/-- The `targetPropertyTransitiveWhitelist` table: the `INTERFACE_` form of
    each transitive property name (entry 0, a null pointer, is skipped by
    every loop over the table and is not represented). -/
def transitiveWhitelist (w : World) : List String :=
  w.transitiveBase.map (fun b => "INTERFACE_" ++ b)

/-! ## The simple operator nodes

One definition per node struct of the source, in source order.  Each takes
the already-evaluated parameter strings and the context and returns the
node's result string together with the (possibly updated) context. -/

/-- `ZeroNode::Evaluate`. -/
def zeroNodeEvaluate (_params : List String) (ctx : Ctx) : String × Ctx := ("", ctx)

/-- `OneNode::Evaluate` (`parameters.front()`); also `BUILD_INTERFACE`. -/
def oneNodeEvaluate (params : List String) (ctx : Ctx) : String × Ctx :=
  (params.headD "", ctx)

/-- The `BOOLEAN_OP_NODE` macro body: walk the parameters in order; the first
    parameter equal to the failure value is returned immediately; any other
    parameter different from the success value is a fatal error; if the walk
    completes, the success value is returned.  AND instantiates
    (success, failure) = ("1", "0"), OR instantiates ("0", "1"). -/
def booleanOpEvaluate (opName successValue failureValue : String)
    (params : List String) (ctx : Ctx) : String × Ctx :=
  match params with
  | [] => (successValue, ctx)
  | p :: rest =>
    if p == failureValue then (failureValue, ctx)
    else if p != successValue then
      ("", reportError ctx
        ("Parameters to $<" ++ opName ++ "> must resolve to either 0 or 1."))
    else booleanOpEvaluate opName successValue failureValue rest ctx

/-- `andNode` (`BOOLEAN_OP_NODE(andNode, AND, 1, 0)`). -/
def andNodeEvaluate (params : List String) (ctx : Ctx) : String × Ctx :=
  booleanOpEvaluate "AND" "1" "0" params ctx

/-- `orNode` (`BOOLEAN_OP_NODE(orNode, OR, 0, 1)`). -/
def orNodeEvaluate (params : List String) (ctx : Ctx) : String × Ctx :=
  booleanOpEvaluate "OR" "0" "1" params ctx

/-- `NotNode::Evaluate`. -/
def notNodeEvaluate (params : List String) (ctx : Ctx) : String × Ctx :=
  let p := params.headD ""
  if p != "0" && p != "1" then
    ("", reportError ctx "$<NOT> parameter must resolve to exactly one 0 or 1 value.")
  else (if p == "0" then "1" else "0", ctx)

/-- `BoolNode::Evaluate`. -/
def boolNodeEvaluate (params : List String) (ctx : Ctx) : String × Ctx :=
  (if !isOff (params.headD "") then "1" else "0", ctx)

/-- `StrEqualNode::Evaluate`. -/
def strEqualNodeEvaluate (params : List String) (ctx : Ctx) : String × Ctx :=
  (if params.headD "" == params.getD 1 "" then "1" else "0", ctx)

/-- The argument parsing of `EqualNode::Evaluate` for one parameter: the
    sequential `0b` / `-0b` / `+0b` literal-prefix stripping (each test runs
    on the pointer as advanced by the previous one), then `strtol` with base
    2 (binary) or base 0 (decimal / hex / octal detection), rejecting
    no-conversion, trailing characters and out-of-range values, finally
    applying the recorded sign flip. -/
def equalParamParse (s : String) : Option Int :=
  let cs := s.data
  let (base1, cs1) :=
    if litPfx cs ['0', 'b'] || litPfx cs ['0', 'B'] then (2, cs.drop 2) else (0, cs)
  let (base2, flip2, cs2) :=
    if litPfx cs1 ['-', '0', 'b'] || litPfx cs1 ['-', '0', 'B'] then (2, true, cs1.drop 3)
    else (base1, false, cs1)
  let (base3, cs3) :=
    if litPfx cs2 ['+', '0', 'b'] || litPfx cs2 ['+', '0', 'B'] then (2, cs2.drop 3)
    else (base2, cs2)
  let r := strtolCore cs3 base3
  if !r.converted || !r.rest.isEmpty || r.rangeError then none
  else some (if flip2 then -r.value else r.value)

/-- `EqualNode::Evaluate`. -/
def equalNodeEvaluate (params : List String) (ctx : Ctx) : String × Ctx :=
  let a := params.headD ""
  let b := params.getD 1 ""
  match equalParamParse a with
  | none => ("", reportError ctx ("$<EQUAL> parameter " ++ a ++ " is not a valid integer."))
  | some lnum =>
    match equalParamParse b with
    | none => ("", reportError ctx ("$<EQUAL> parameter " ++ b ++ " is not a valid integer."))
    | some rnum => (if lnum = rnum then "1" else "0", ctx)

/-- `LowerCaseNode::Evaluate`. -/
def lowerCaseNodeEvaluate (params : List String) (ctx : Ctx) : String × Ctx :=
  (lowerCaseString (params.headD ""), ctx)

/-- `UpperCaseNode::Evaluate`. -/
def upperCaseNodeEvaluate (params : List String) (ctx : Ctx) : String × Ctx :=
  (upperCaseString (params.headD ""), ctx)

/-- `MakeCIdentifierNode::Evaluate`. -/
def makeCIdentifierNodeEvaluate (params : List String) (ctx : Ctx) : String × Ctx :=
  (makeCIdentifier (params.headD ""), ctx)

/-- `Angle_RNode::Evaluate`. -/
def angleRNodeEvaluate (_params : List String) (ctx : Ctx) : String × Ctx := (">", ctx)

/-- `CommaNode::Evaluate`. -/
def commaNodeEvaluate (_params : List String) (ctx : Ctx) : String × Ctx := (",", ctx)

/-- `SemicolonNode::Evaluate`. -/
def semicolonNodeEvaluate (_params : List String) (ctx : Ctx) : String × Ctx := (";", ctx)

/-- `CompilerIdNode::EvaluateWithLanguage`.  `GetSafeDefinition` never yields
    a null pointer, so the `if (!compilerId)` branch of the source is dead
    and has no counterpart here. -/
def compilerIdEvaluateWithLanguage (w : World) (params : List String) (ctx : Ctx)
    (lang : String) : String × Ctx :=
  let compilerId := w.getSafeDefinition ("CMAKE_" ++ lang ++ "_COMPILER_ID")
  match params with
  | [] => (compilerId, ctx)
  | p :: _ =>
    if !matchIdentRegex p then
      ("", reportError ctx "Expression syntax not recognized.")
    else if p == compilerId then ("1", ctx)
    else if strCaseEq p compilerId then
      match w.policyStatusCMP0044 with
      | .warn => ("1", addWarning ctx)
      | .old => ("1", ctx)
      | .new | .requiredAlways | .requiredIfUsed => ("0", ctx)
    else ("0", ctx)

/-- `CCompilerIdNode::Evaluate`. -/
def cCompilerIdNodeEvaluate (w : World) (params : List String) (ctx : Ctx) : String × Ctx :=
  match ctx.headTarget with
  | none => ("", reportError ctx
      "$<C_COMPILER_ID> may only be used with binary targets.  It may not be used with add_custom_command or add_custom_target.")
  | some _ => compilerIdEvaluateWithLanguage w params ctx "C"

/-- `CXXCompilerIdNode::Evaluate`. -/
def cxxCompilerIdNodeEvaluate (w : World) (params : List String) (ctx : Ctx) : String × Ctx :=
  match ctx.headTarget with
  | none => ("", reportError ctx
      "$<CXX_COMPILER_ID> may only be used with binary targets.  It may not be used with add_custom_command or add_custom_target.")
  | some _ => compilerIdEvaluateWithLanguage w params ctx "CXX"

/-- `CompilerVersionNode::EvaluateWithLanguage` (the dead null-pointer branch
    is again omitted). -/
def compilerVersionEvaluateWithLanguage (w : World) (params : List String) (ctx : Ctx)
    (lang : String) : String × Ctx :=
  let compilerVersion := w.getSafeDefinition ("CMAKE_" ++ lang ++ "_COMPILER_VERSION")
  match params with
  | [] => (compilerVersion, ctx)
  | p :: _ =>
    if !matchVersionRegex p then
      ("", reportError ctx "Expression syntax not recognized.")
    else (if versionEqual p compilerVersion then "1" else "0", ctx)

/-- `CCompilerVersionNode::Evaluate`. -/
def cCompilerVersionNodeEvaluate (w : World) (params : List String) (ctx : Ctx) : String × Ctx :=
  match ctx.headTarget with
  | none => ("", reportError ctx
      "$<C_COMPILER_VERSION> may only be used with binary targets.  It may not be used with add_custom_command or add_custom_target.")
  | some _ => compilerVersionEvaluateWithLanguage w params ctx "C"

/-- `CxxCompilerVersionNode::Evaluate`. -/
def cxxCompilerVersionNodeEvaluate (w : World) (params : List String) (ctx : Ctx) : String × Ctx :=
  match ctx.headTarget with
  | none => ("", reportError ctx
      "$<CXX_COMPILER_VERSION> may only be used with binary targets.  It may not be used with add_custom_command or add_custom_target.")
  | some _ => compilerVersionEvaluateWithLanguage w params ctx "CXX"

/-- `PlatformIdNode::Evaluate` (no validator, no policy fallback; the dead
    null-pointer branch is omitted). -/
def platformIdNodeEvaluate (w : World) (params : List String) (ctx : Ctx) : String × Ctx :=
  let platformId := w.getSafeDefinition "CMAKE_SYSTEM_NAME"
  match params with
  | [] => (platformId, ctx)
  | p :: _ => (if p == platformId then "1" else "0", ctx)

/-- `VersionGreaterNode::Evaluate`. -/
def versionGreaterNodeEvaluate (params : List String) (ctx : Ctx) : String × Ctx :=
  (if versionGreater (params.headD "") (params.getD 1 "") then "1" else "0", ctx)

/-- `VersionLessNode::Evaluate`. -/
def versionLessNodeEvaluate (params : List String) (ctx : Ctx) : String × Ctx :=
  (if versionLess (params.headD "") (params.getD 1 "") then "1" else "0", ctx)

/-- `VersionEqualNode::Evaluate`. -/
def versionEqualNodeEvaluate (params : List String) (ctx : Ctx) : String × Ctx :=
  (if versionEqual (params.headD "") (params.getD 1 "") then "1" else "0", ctx)

/-- `LinkOnlyNode::Evaluate` dereferences `dagChecker` unconditionally; a
    null checker is undefined behaviour, represented by `none`. -/
def linkOnlyEvaluate (params : List String) : Option DagChecker → Option String
  | none => none
  | some d => some (if !d.transitivePropertiesOnly then params.headD "" else "")

/-- `ConfigurationNode::Evaluate`: sets the context-sensitive flag and
    returns the active configuration. -/
def configurationNodeEvaluate (ctx : Ctx) : String × Ctx :=
  (ctx.config, setCSC ctx)

/-- `ConfigurationTestNode::Evaluate`. -/
def configurationTestNodeEvaluate (w : World) (params : List String) (ctx : Ctx) : String × Ctx :=
  match params with
  | [] => configurationNodeEvaluate ctx
  | p :: _ =>
    if !matchIdentRegex p then
      ("", reportError ctx "Expression syntax not recognized.")
    else
      let ctx := setCSC ctx
      if ctx.config == "" then (if p == "" then "1" else "0", ctx)
      else if strCaseEq p ctx.config then ("1", ctx)
      else
        match ctx.currentTarget with
        | some cur =>
          if w.isImported cur then
            if w.getMappedConfig cur ctx.config then
              match w.getProperty cur ("MAP_IMPORTED_CONFIG_" ++ upperCaseString ctx.config) with
              | some mapValue =>
                (if (expandListArgument (upperCaseString mapValue)).contains
                      (upperCaseString p) then "1" else "0", ctx)
              | none => ("0", ctx)
            else ("0", ctx)
          else ("0", ctx)
        | none => ("0", ctx)

/-- `JoinNode::Evaluate`: expand the first parameter as a `;`-list and join
    with the second parameter (the separator is empty before the first
    element). -/
def joinNodeEvaluate (params : List String) (ctx : Ctx) : String × Ctx :=
  (String.intercalate (params.getD 1 "") (expandListArgument (params.headD "")), ctx)

/-- `TargetNameNode::Evaluate` (`parameters.front()`). -/
def targetNameNodeEvaluate (params : List String) (ctx : Ctx) : String × Ctx :=
  (params.headD "", ctx)

/-- `InstallPrefixNode::Evaluate`: always a fatal error. -/
def installPrefixNodeEvaluate (_params : List String) (ctx : Ctx) : String × Ctx :=
  ("", reportError ctx
    "INSTALL_PREFIX is a marker for install(EXPORT) only.  It should never be evaluated.")

/-- The whitelist walk of `TargetPolicyNode::Evaluate` (the loop over
    `targetPolicyWhitelist` with its `statusForTarget` switch; `WARN` issues
    the author warning and falls through to return "0"). -/
def targetPolicyLoop (w : World) (head p : String) (ctx : Ctx) :
    List String → String × Ctx
  | [] => ("", reportError ctx
      "$<TARGET_POLICY:prop> may only be used with a limited number of policies.")
  | pol :: rest =>
    if p == pol then
      match w.policyStatusForTarget head pol with
      | .warn => ("0", addWarning ctx)
      | .requiredIfUsed | .requiredAlways | .old => ("0", ctx)
      | .new => ("1", ctx)
    else targetPolicyLoop w head p ctx rest

/-- `TargetPolicyNode::Evaluate`. -/
def targetPolicyNodeEvaluate (w : World) (params : List String) (ctx : Ctx) : String × Ctx :=
  match ctx.headTarget with
  | none => ("", reportError ctx
      "$<TARGET_POLICY:prop> may only be used with binary targets.  It may not be used with add_custom_command or add_custom_target.")
  | some head =>
    let ctx := setCSC ctx
    targetPolicyLoop w head (params.headD "") ctx w.targetPolicies

/-- Ordered insertion into the `testedFeatures` map of
    `CompileFeaturesNode::Evaluate` (a `std::map` ordered by language name;
    features appended in encounter order). -/
def insertTested (lang feat : String) : List (String × List String) → List (String × List String)
  | [] => [(lang, [feat])]
  | (l, fs) :: rest =>
    match compare lang l with
    | .eq => (l, fs ++ [feat]) :: rest
    | .lt => (lang, [feat]) :: (l, fs) :: rest
    | .gt => (l, fs) :: insertTested lang feat rest

/-- The parameter walk of `CompileFeaturesNode::Evaluate`: classify each
    feature (fatal on unknown), record it under its language, and on the
    first encounter of a language check that its available features are
    known (fatal otherwise).  The `availableFeatures` cache only avoids
    repeated queries of the read-only store and needs no counterpart. -/
def cfGather (w : World) (head : String) :
    List String → List (String × List String) → Except String (List (String × List String))
  | [], acc => .ok acc
  | f :: rest, acc =>
    match w.compileFeatureKnown head f with
    | .error e => .error e
    | .ok lang =>
      let langKnown := acc.any (fun e => e.1 == lang)
      let acc' := insertTested lang f acc
      if langKnown then cfGather w head rest acc'
      else
        match w.compileFeaturesAvailable lang with
        | .error e => .error e
        | .ok _ => cfGather w head rest acc'

/-- The availability walk for one language: an unavailable feature either
    records the required standard (link-libraries mode: the target's
    `<LANG>_STANDARD` or the `CMAKE_<LANG>_STANDARD_DEFAULT` definition,
    asserted non-null) or returns "0" immediately (`Except.error` carries the
    context of that early return). -/
def cfCheckFeats (w : World) (target lang : String) (evalLL : Bool) :
    List String → Ctx → Except Ctx Ctx
  | [], ctx => .ok ctx
  | f :: rest, ctx =>
    if !w.haveFeatureAvailable target lang f then
      if evalLL then
        let l := (w.getProperty target (lang ++ "_STANDARD")).getD
                   ((w.getDefinition ("CMAKE_" ++ lang ++ "_STANDARD_DEFAULT")).getD "")
        cfCheckFeats w target lang evalLL rest (setMaxLanguageStandard ctx target lang l)
      else .error ctx
    else cfCheckFeats w target lang evalLL rest ctx

/-- The outer availability walk over the per-language feature lists. -/
def cfCheckAll (w : World) (target : String) (evalLL : Bool) :
    List (String × List String) → Ctx → Except Ctx Ctx
  | [], ctx => .ok ctx
  | (lang, feats) :: rest, ctx =>
    match cfCheckFeats w target lang evalLL feats ctx with
    | .error c => .error c
    | .ok c => cfCheckAll w target evalLL rest c

/-- `CompileFeaturesNode::Evaluate`. -/
def compileFeaturesNodeEvaluate (w : World) (params : List String) (ctx : Ctx)
    (dag : Option DagChecker) : String × Ctx :=
  match ctx.headTarget with
  | none => ("", reportError ctx
      "$<COMPILE_FEATURE> may only be used with binary targets.  It may not be used with add_custom_command or add_custom_target.")
  | some target =>
    match cfGather w target params [] with
    | .error e => ("", reportError ctx e)
    | .ok tested =>
      match cfCheckAll w target (dagEvaluatingLinkLibraries dag) tested ctx with
      | .error c => ("0", c)
      | .ok c => ("1", c)

/-- `TargetObjectsNode::Evaluate`.  The `std::map` keyed by source pointers
    deduplicates the object sources; its iteration order (pointer order) is
    modelled as first-encounter order.  The `GetOrCreateSource` /
    `SetObjectLibrary` / `EXTERNAL_OBJECT` side effects act on the host
    source-file store (outside the evaluation context) and leave the context
    untouched. -/
def targetObjectsNodeEvaluate (w : World) (params : List String) (ctx : Ctx) : String × Ctx :=
  if !ctx.evaluateForBuildsystem then
    ("", reportError ctx
      "The evaluation of the TARGET_OBJECTS generator expression is only suitable for consumption by CMake.  It is not suitable for writing out elsewhere.")
  else
    let tgtName := params.headD ""
    match w.findGeneratorTargetToUse tgtName with
    | none => ("", reportError ctx
        ("Objects of target \"" ++ tgtName ++ "\" referenced but no such target exists."))
    | some gt =>
      if w.targetType gt ≠ .objectLibrary then
        ("", reportError ctx
          ("Objects of target \"" ++ tgtName ++ "\" referenced but is not an OBJECT library."))
      else
        let objectSources := (w.getObjectSources gt ctx.config).dedup
        let objDir := w.objectDirectory gt
        (String.intercalate ";"
          (objectSources.map (fun s => objDir ++ w.computeObjectFilename gt s)), ctx)

/-- `TargetFilesystemArtifactResultCreator<linker, soname>::Create`.  The
    `(true, true)` instantiation does not exist in the source and yields the
    empty string here. -/
def artifactCreate (w : World) (linker soname : Bool) (target : String) (ctx : Ctx) :
    String × Ctx :=
  match linker, soname with
  | false, true =>
    if w.isDLLPlatform target then
      ("", reportError ctx "TARGET_SONAME_FILE is not allowed for DLL target platforms.")
    else if w.targetType target ≠ .sharedLibrary then
      ("", reportError ctx "TARGET_SONAME_FILE is allowed only for SHARED libraries.")
    else (w.getDirectory target ctx.config ++ "/" ++ w.getSOName target ctx.config, ctx)
  | true, false =>
    if !w.isLinkable target then
      ("", reportError ctx
        "TARGET_LINKER_FILE is allowed only for libraries and executables with ENABLE_EXPORTS.")
    else (w.getFullPath target ctx.config (w.hasImportLibrary target) false, ctx)
  | false, false => (w.getFullPath target ctx.config false true, ctx)
  | true, true => ("", ctx)

/-- `TargetFilesystemArtifactResultGetter<dirQual, nameQual>::Get`. -/
def artifactGet (dirQual nameQual : Bool) (result : String) : String :=
  match dirQual, nameQual with
  | false, true => filenameName result
  | true, false => filenamePath result
  | _, _ => result

/-- Modelled from the spec: `EvaluatingLinkLibraries(name)` of the DAG
    checker reads the evaluating-link-libraries role bit of the chain and
    compares the queried name with the top target (§3 role bits, §4.5 cycle
    guard). -/
def dagEvaluatingLinkLibrariesFor (name : String) : Option DagChecker → Bool
  | none => false
  | some d => d.evaluatingLinkLibraries && name == d.topTarget

/-- `TargetFilesystemArtifact<linker, soname, dirQual, nameQual>::Evaluate`. -/
def targetFilesystemArtifactEvaluate (w : World) (linker soname dirQual nameQual : Bool)
    (params : List String) (ctx : Ctx) (dag : Option DagChecker) : String × Ctx :=
  let name := params.headD ""
  if !w.isValidTargetName name then
    ("", reportError ctx "Expression syntax not recognized.")
  else
    match w.findTargetToUse name with
    | none => ("", reportError ctx ("No target \"" ++ name ++ "\""))
    | some target =>
      if TargetType.code (w.targetType target) ≥ TargetType.code .objectLibrary ∧
          w.targetType target ≠ .unknownLibrary then
        ("", reportError ctx ("Target \"" ++ name ++ "\" is not an executable or library."))
      else if dagEvaluatingLinkLibrariesFor name dag ||
          (match dag with
           | some d => d.evaluatingSources && name == d.topTarget
           | none => false) then
        ("", reportError ctx
          "Expressions which require the linker language may not be used while evaluating link libraries")
      else
        let ctx := addAllTarget (addDependTarget ctx target) target
        let (result, ctx) := artifactCreate w linker soname target ctx
        if ctx.hadError then ("", ctx)
        else (artifactGet dirQual nameQual result, ctx)

/-! ## The node registry -/

/-- One constructor per node instance registered in `GetNode`'s `nodeMap`;
    the nine `TargetFilesystemArtifact` instantiations share the
    parameterized `artifact` constructor. -/
inductive NodeKind where
  | zero | one | andOp | orOp | notOp
  | cCompilerId | cxxCompilerId
  | versionGreaterOp | versionLessOp | versionEqualOp
  | cCompilerVersion | cxxCompilerVersion
  | platformId | compileFeatures | configuration | configurationTest
  | artifact (linker soname dirQual nameQual : Bool)
  | strEqual | equal | lowerCase | upperCase | makeCId | boolOp
  | angleR | comma | semicolon
  | targetProperty | targetName | targetObjects | targetPolicy
  | buildInterface | installInterface | installPrefix | join | linkOnly
deriving Repr, DecidableEq

/-- `GeneratesContent()`: false only for the two `ZeroNode` instances. -/
def NodeKind.generatesContent : NodeKind → Bool
  | .zero | .installInterface => false
  | _ => true

/-- `RequiresLiteralInput()`: true only for `TargetNameNode`. -/
def NodeKind.requiresLiteralInput : NodeKind → Bool
  | .targetName => true
  | _ => false

/-- `AcceptsArbitraryContentParameter()`. -/
def NodeKind.acceptsArbitraryContent : NodeKind → Bool
  | .zero | .one | .buildInterface | .installInterface
  | .lowerCase | .upperCase | .makeCId | .join | .targetName => true
  | _ => false

/-- `NumExpectedParameters()` (`OneOrMoreParameters = -1`,
    `OneOrZeroParameters = -2`, `DynamicParameters = 0`). -/
def NodeKind.numExpectedParameters : NodeKind → Int
  | .andOp | .orOp | .compileFeatures | .targetProperty => -1
  | .cCompilerId | .cxxCompilerId | .cCompilerVersion | .cxxCompilerVersion
  | .platformId | .configurationTest => -2
  | .angleR | .comma | .semicolon | .configuration | .installPrefix => 0
  | .strEqual | .equal | .versionGreaterOp | .versionLessOp | .versionEqualOp | .join => 2
  | _ => 1

/-- `GetNode`: the identifier-to-node map. -/
def getNode : String → Option NodeKind
  | "0" => some .zero
  | "1" => some .one
  | "AND" => some .andOp
  | "OR" => some .orOp
  | "NOT" => some .notOp
  | "C_COMPILER_ID" => some .cCompilerId
  | "CXX_COMPILER_ID" => some .cxxCompilerId
  | "VERSION_GREATER" => some .versionGreaterOp
  | "VERSION_LESS" => some .versionLessOp
  | "VERSION_EQUAL" => some .versionEqualOp
  | "C_COMPILER_VERSION" => some .cCompilerVersion
  | "CXX_COMPILER_VERSION" => some .cxxCompilerVersion
  | "PLATFORM_ID" => some .platformId
  | "COMPILE_FEATURES" => some .compileFeatures
  | "CONFIGURATION" => some .configuration
  | "CONFIG" => some .configurationTest
  | "TARGET_FILE" => some (.artifact false false false false)
  | "TARGET_LINKER_FILE" => some (.artifact true false false false)
  | "TARGET_SONAME_FILE" => some (.artifact false true false false)
  | "TARGET_FILE_NAME" => some (.artifact false false false true)
  | "TARGET_LINKER_FILE_NAME" => some (.artifact true false false true)
  | "TARGET_SONAME_FILE_NAME" => some (.artifact false true false true)
  | "TARGET_FILE_DIR" => some (.artifact false false true false)
  | "TARGET_LINKER_FILE_DIR" => some (.artifact true false true false)
  | "TARGET_SONAME_FILE_DIR" => some (.artifact false true true false)
  | "STREQUAL" => some .strEqual
  | "EQUAL" => some .equal
  | "LOWER_CASE" => some .lowerCase
  | "UPPER_CASE" => some .upperCase
  | "MAKE_C_IDENTIFIER" => some .makeCId
  | "BOOL" => some .boolOp
  | "ANGLE-R" => some .angleR
  | "COMMA" => some .comma
  | "SEMICOLON" => some .semicolon
  | "TARGET_PROPERTY" => some .targetProperty
  | "TARGET_NAME" => some .targetName
  | "TARGET_OBJECTS" => some .targetObjects
  | "TARGET_POLICY" => some .targetPolicy
  | "BUILD_INTERFACE" => some .buildInterface
  | "INSTALL_INTERFACE" => some .installInterface
  | "INSTALL_PREFIX" => some .installPrefix
  | "JOIN" => some .join
  | "LINK_ONLY" => some .linkOnly
  | _ => none

/-! ## The evaluation driver

Every function below that re-enters expression evaluation is parameterized
by an evaluation function `ev`; the fuel-indexed `evaluate` at the end ties
the knot by instantiating `ev` with itself at one unit less fuel. -/

/-- The type of an expression evaluator
    (`cmGeneratorExpressionEvaluator::Evaluate`). -/
def EvalFun : Type :=
  GenExEvaluator → Ctx → Option DagChecker → String × Ctx

/-- The child-concatenation loop shared by the identifier walk of
    `GeneratorExpressionContent::Evaluate` and the per-group walk of
    `EvaluateParameters`: accumulate each child's evaluation, bailing out
    (`none`) as soon as the error flag is set. -/
def childConcatLoop (ev : EvalFun) (dag : Option DagChecker) :
    List GenExEvaluator → String → Ctx → Option String × Ctx
  | [], acc, ctx => (some acc, ctx)
  | c :: rest, acc, ctx =>
    let (s, ctx') := ev c ctx dag
    if ctx'.hadError then (none, ctx')
    else childConcatLoop ev dag rest (acc ++ s) ctx'

/-- Modelled from the spec: the evaluator walk of
    `cmCompiledGeneratorExpression::Evaluate` concatenates the root
    evaluators and, per §4.11, bails out with the empty string once the
    error flag of its (fresh) context is set. -/
def compiledLoop (ev : EvalFun) (dag : Option DagChecker) :
    List GenExEvaluator → String → Ctx → String × Ctx
  | [], acc, ctx => (acc, ctx)
  | c :: rest, acc, ctx =>
    let (s, ctx') := ev c ctx dag
    if ctx'.hadError then ("", ctx')
    else compiledLoop ev dag rest (acc ++ s) ctx'

/-- Modelled from the spec: the fresh evaluation context a compiled
    sub-expression is evaluated in (§2 component B: per-evaluation scratch;
    seeded with config, quiet flag, head and current target; all flags clear;
    sub-expressions are never buildsystem evaluations). -/
def freshCtx (config : String) (quiet : Bool) (head current : Option String) : Ctx :=
  { config := config, headTarget := head, currentTarget := current, quiet := quiet,
    evaluateForBuildsystem := false, hadError := false,
    hadContextSensitiveCondition := false, allTargets := [], dependTargets := [],
    seenTargetProperties := [], maxLanguageStandard := [], messages := [],
    warnings := 0, cscEvents := 0 }

/-- Modelled from the spec: `ge.Parse(depString)` followed by
    `cge->Evaluate(makefile, config, quiet, headTarget, currentTarget, dag)`
    on an already-built evaluator list (§6 external surface). -/
def evaluateCompiledF (ev : EvalFun) (evaluators : List GenExEvaluator)
    (config : String) (quiet : Bool) (head current : Option String)
    (dag : Option DagChecker) : String × Ctx :=
  compiledLoop ev dag evaluators "" (freshCtx config quiet head current)

/-- The `POPULATE_INTERFACE_PROPERTY_NAME` cascade: the first transitive
    base name matching `propertyName` (plain or `INTERFACE_` form) wins. -/
def populateInterfaceName (propertyName : String) : List String → Option String
  | [] => none
  | b :: rest =>
    if propertyName == b || propertyName == "INTERFACE_" ++ b then some ("INTERFACE_" ++ b)
    else populateInterfaceName propertyName rest

/-- `interfacePropertyName` computation (source lines 1067-1088), including
    the CMP0043-gated `COMPILE_DEFINITIONS_<CONFIG>` legacy mapping. -/
def computeInterfaceName (w : World) (propertyName : String) : String :=
  match populateInterfaceName propertyName w.transitiveBase with
  | some n => n
  | none =>
    if litPfx propertyName.data "COMPILE_DEFINITIONS_".data ∧
        (w.policyStatusCMP0043 = .warn ∨ w.policyStatusCMP0043 = .old) then
      "INTERFACE_COMPILE_DEFINITIONS"
    else ""

/-- The `TRANSITIVE_PROPERTY_COMPARE` disjunction: `propertyName` equals a
    transitive base name or its `INTERFACE_` form. -/
def transitivePropertyCompare (w : World) (propertyName : String) : Bool :=
  w.transitiveBase.any (fun b => b == propertyName || ("INTERFACE_" ++ b) == propertyName)

/-- The AST of one synthesized `$<TARGET_PROPERTY:tgt,prop>` read. -/
def tpContent (t p : String) : GenExEvaluator :=
  .content [.text "TARGET_PROPERTY"] [[.text t], [.text p]]

/-- Modelled from the spec: the out-of-scope parser maps the synthesized
    `;`-joined `$<TARGET_PROPERTY:n,p>` string built by
    `getLinkedTargetsContent` to the corresponding alternation of compound
    nodes and `";"` text nodes. -/
def synthLinkedAst (targets : List String) (ipn : String) : List GenExEvaluator :=
  (targets.map (fun t => tpContent t ipn)).intersperse (.text ";")

/-- `getLinkedTargetsContent`: skip the target itself, synthesize one
    `$<TARGET_PROPERTY:t,interfacePropertyName>` per remaining target joined
    with `;`, evaluate the parse of that string under the new DAG frame with
    a fresh context, and propagate the context-sensitive flag. -/
def getLinkedTargetsContentF (ev : EvalFun) (targets : List String)
    (target headTarget : String) (ctx : Ctx) (dc : DagChecker)
    (interfacePropertyName : String) : String × Ctx :=
  let filtered := targets.filter (fun t => t ≠ target)
  let (out, sub) := evaluateCompiledF ev (synthLinkedAst filtered interfacePropertyName)
      ctx.config ctx.quiet (some headTarget) (some target) (some dc)
  (out, propagateCSC ctx sub)

/-- The transitive-content collection of `TargetPropertyNode::Evaluate`
    (source lines 1093-1127): a whitelisted property reads the transitive
    property targets, otherwise a whitelisted `INTERFACE_` form reads the
    link-implementation libraries (dropping non-target items). -/
def targetPropertyLinkedContent (w : World) (ev : EvalFun)
    (tgt propertyName interfacePropertyName headTarget : String) (ctx : Ctx)
    (dc : DagChecker) : String × Ctx :=
  let wl := transitiveWhitelist w
  if wl.contains propertyName then
    let tgts := w.transitivePropertyTargets tgt ctx.config headTarget
    if !tgts.isEmpty then
      getLinkedTargetsContentF ev tgts tgt headTarget ctx dc interfacePropertyName
    else ("", ctx)
  else if wl.contains interfacePropertyName then
    match w.linkImplementationLibraries tgt ctx.config with
    | some libs =>
      getLinkedTargetsContentF ev (libs.filterMap id) tgt headTarget ctx dc
        interfacePropertyName
    | none => ("", ctx)
  else ("", ctx)

/-- The final whitelist loop of `TargetPropertyNode::Evaluate` (source lines
    1205-1231) for a present raw property value `p`: when the interface
    property name is whitelisted, parse and re-evaluate `p` under the new
    frame with head = head target and current = `tgt`, propagate the
    context-sensitive flag, and append the non-empty transitive content with
    a `;` separator; otherwise return `p` verbatim. -/
def targetPropertyFinishF (w : World) (ev : EvalFun)
    (tgt p linkedTargetsContent headTarget : String) (ctx : Ctx) (dc : DagChecker)
    (interfacePropertyName : String) : String × Ctx :=
  if (transitiveWhitelist w).contains interfacePropertyName then
    let (result0, sub) := evaluateCompiledF ev (w.parse p) ctx.config ctx.quiet
        (some headTarget) (some tgt) (some dc)
    let ctx := propagateCSC ctx sub
    let result := if !linkedTargetsContent.isEmpty then
        result0 ++ (if result0.isEmpty then "" else ";") ++ linkedTargetsContent
      else result0
    (result, ctx)
  else (p, ctx)

/-- `TargetPropertyNode::Evaluate` from the interface-property-name
    computation (line 1065) to the final return: transitive-content
    collection, empty-element stripping, the absent-property consultations
    and the present-property finish. -/
def targetPropertyMainF (w : World) (ev : EvalFun) (tgt propertyName : String)
    (ctx : Ctx) (dagParent : Option DagChecker) (dc : DagChecker) : String × Ctx :=
  let prop := w.getProperty tgt propertyName
  let interfacePropertyName := computeInterfaceName w propertyName
  let headTarget := ctx.headTarget.getD tgt
  let (linkedTargetsContent0, ctx) :=
    targetPropertyLinkedContent w ev tgt propertyName interfacePropertyName headTarget ctx dc
  let linkedTargetsContent := stripEmptyListElements linkedTargetsContent0
  match prop with
  | none =>
    if w.isImported tgt || w.targetType tgt = .interfaceLibrary then
      (linkedTargetsContent, ctx)
    else if w.isLinkInterfaceDependentBoolProperty tgt propertyName ctx.config then
      (if w.getLinkInterfaceDependentBoolProperty tgt propertyName ctx.config
       then "1" else "0", setCSC ctx)
    else if w.isLinkInterfaceDependentStringProperty tgt propertyName ctx.config then
      ((w.getLinkInterfaceDependentStringProperty tgt propertyName ctx.config).getD "",
        setCSC ctx)
    else if w.isLinkInterfaceDependentNumberMinProperty tgt propertyName ctx.config then
      ((w.getLinkInterfaceDependentNumberMinProperty tgt propertyName ctx.config).getD "",
        setCSC ctx)
    else if w.isLinkInterfaceDependentNumberMaxProperty tgt propertyName ctx.config then
      ((w.getLinkInterfaceDependentNumberMaxProperty tgt propertyName ctx.config).getD "",
        setCSC ctx)
    else (linkedTargetsContent, ctx)
  | some p =>
    if !w.isImported tgt ∧ dagParent.isSome ∧ !dagEvaluatingLinkLibraries dagParent then
      if w.isLinkInterfaceDependentNumberMinProperty tgt propertyName ctx.config then
        ((w.getLinkInterfaceDependentNumberMinProperty tgt propertyName ctx.config).getD "",
          setCSC ctx)
      else if w.isLinkInterfaceDependentNumberMaxProperty tgt propertyName ctx.config then
        ((w.getLinkInterfaceDependentNumberMaxProperty tgt propertyName ctx.config).getD "",
          setCSC ctx)
      else
        targetPropertyFinishF w ev tgt p linkedTargetsContent headTarget ctx dc
          interfacePropertyName
    else
      targetPropertyFinishF w ev tgt p linkedTargetsContent headTarget ctx dc
        interfacePropertyName

/-- The tail of `TargetPropertyNode::Evaluate` from the property read at line
    1028 to the final return: the continuation shared by the `DAG` outcome
    and the whitelist-miss `ALREADY_SEEN` fallthrough.  A parent frame in
    link-libraries role first rejects transitive properties and returns empty
    for an absent raw value (lines 1030-1051); the non-link-libraries parent
    branch only asserts. -/
def targetPropertyContinueF (w : World) (ev : EvalFun) (tgt propertyName : String)
    (ctx : Ctx) (dagParent : Option DagChecker) (dc : DagChecker) : String × Ctx :=
  match dagParent with
  | some d =>
    if d.evaluatingLinkLibraries then
      if transitivePropertyCompare w propertyName then
        ("", reportError ctx
          "$<TARGET_PROPERTY:...> expression in link libraries evaluation depends on target property which is transitive over the link libraries, creating a recursion.")
      else if w.getProperty tgt propertyName = none then ("", ctx)
      else targetPropertyMainF w ev tgt propertyName ctx dagParent dc
    else targetPropertyMainF w ev tgt propertyName ctx dagParent dc
  | none => targetPropertyMainF w ev tgt propertyName ctx dagParent dc

/-- `TargetPropertyNode::Evaluate` from the seen-properties bookkeeping (line
    959) to the DAG-checker switch; the role of the resolved target is fixed
    by the caller. -/
def targetPropertyAfterResolve (w : World) (ev : EvalFun) (tgt propertyName : String)
    (ctx : Ctx) (dagParent : Option DagChecker) : String × Ctx :=
  let ctx := if some tgt = ctx.headTarget then addSeenTargetProperty ctx propertyName else ctx
  if propertyName == "" then
    ("", reportError ctx
      "$<TARGET_PROPERTY:...> expression requires a non-empty property name.")
  else if !matchPropRegex propertyName then
    ("", reportError ctx "Property name not supported.")
  else if propertyName == "LINKER_LANGUAGE" then
    if w.linkLanguagePropagatesToDependents tgt &&
        (match dagParent with
         | some d => d.evaluatingLinkLibraries || d.evaluatingSources
         | none => false) then
      ("", reportError ctx
        "LINKER_LANGUAGE target property can not be used while evaluating link libraries for a static library")
    else (w.getLinkerLanguage tgt ctx.config, ctx)
  else
    let dc := newDagChecker tgt propertyName dagParent
    match w.dagCheck dc with
    | .selfReference =>
      -- Modelled from the spec: `dagChecker.ReportError` is fatal (§4.6
      -- step 4 "SelfReference: fatal", §4.11).
      ("", reportError ctx "Self reference on target.")
    | .cyclicReference => ("", ctx)
    | .alreadySeen =>
      if (transitiveWhitelist w).contains propertyName then ("", ctx)
      else targetPropertyContinueF w ev tgt propertyName ctx dagParent dc
    | .dag => targetPropertyContinueF w ev tgt propertyName ctx dagParent dc

/-- `TargetPropertyNode::Evaluate`: parameter validation, target resolution
    (including the `ALIASED_TARGET` early return) and the descent. -/
def targetPropertyNodeEvaluateF (w : World) (ev : EvalFun) (params : List String)
    (ctx : Ctx) (dagParent : Option DagChecker) : String × Ctx :=
  if params.length ≠ 1 ∧ params.length ≠ 2 then
    ("", reportError ctx
      "$<TARGET_PROPERTY:...> expression requires one or two parameters")
  else
    match params with
    | [p1] =>
      (match ctx.headTarget with
       | none => ("", reportError ctx
           "$<TARGET_PROPERTY:prop> may only be used with binary targets.  It may not be used with add_custom_command or add_custom_target.  Specify the target to read a property from using the $<TARGET_PROPERTY:tgt,prop> signature instead.")
       | some tgt => targetPropertyAfterResolve w ev tgt p1 ctx dagParent)
    | [targetName, propertyName] =>
      if targetName == "" && propertyName == "" then
        ("", reportError ctx
          "$<TARGET_PROPERTY:tgt,prop> expression requires a non-empty target name and property name.")
      else if targetName == "" then
        ("", reportError ctx
          "$<TARGET_PROPERTY:tgt,prop> expression requires a non-empty target name.")
      else if !w.isValidTargetName targetName then
        if !matchPropRegex propertyName then
          ("", reportError ctx "Target name and property name not supported.")
        else ("", reportError ctx "Target name not supported.")
      else if propertyName == "ALIASED_TARGET" then
        if w.isAlias targetName then
          match w.findTargetToUse targetName with
          | some t => (t, ctx)
          | none => ("", ctx)
        else ("", ctx)
      else
        match w.findTargetToUse targetName with
        | none => ("", reportError ctx ("Target \"" ++ targetName ++ "\" not found."))
        | some tgt =>
          targetPropertyAfterResolve w ev tgt propertyName (addAllTarget ctx tgt) dagParent
    | _ => ("", ctx)

/-- `node->Evaluate(parameters, context, content, dagChecker)`: virtual
    dispatch over the registered node instances. -/
def nodeEvaluateF (w : World) (ev : EvalFun) (kind : NodeKind) (params : List String)
    (ctx : Ctx) (dag : Option DagChecker) : String × Ctx :=
  match kind with
  | .zero => zeroNodeEvaluate params ctx
  | .one => oneNodeEvaluate params ctx
  | .andOp => andNodeEvaluate params ctx
  | .orOp => orNodeEvaluate params ctx
  | .notOp => notNodeEvaluate params ctx
  | .cCompilerId => cCompilerIdNodeEvaluate w params ctx
  | .cxxCompilerId => cxxCompilerIdNodeEvaluate w params ctx
  | .versionGreaterOp => versionGreaterNodeEvaluate params ctx
  | .versionLessOp => versionLessNodeEvaluate params ctx
  | .versionEqualOp => versionEqualNodeEvaluate params ctx
  | .cCompilerVersion => cCompilerVersionNodeEvaluate w params ctx
  | .cxxCompilerVersion => cxxCompilerVersionNodeEvaluate w params ctx
  | .platformId => platformIdNodeEvaluate w params ctx
  | .compileFeatures => compileFeaturesNodeEvaluate w params ctx dag
  | .configuration => configurationNodeEvaluate ctx
  | .configurationTest => configurationTestNodeEvaluate w params ctx
  | .artifact l s d n => targetFilesystemArtifactEvaluate w l s d n params ctx dag
  | .strEqual => strEqualNodeEvaluate params ctx
  | .equal => equalNodeEvaluate params ctx
  | .lowerCase => lowerCaseNodeEvaluate params ctx
  | .upperCase => upperCaseNodeEvaluate params ctx
  | .makeCId => makeCIdentifierNodeEvaluate params ctx
  | .boolOp => boolNodeEvaluate params ctx
  | .angleR => angleRNodeEvaluate params ctx
  | .comma => commaNodeEvaluate params ctx
  | .semicolon => semicolonNodeEvaluate params ctx
  | .targetProperty => targetPropertyNodeEvaluateF w ev params ctx dag
  | .targetName => targetNameNodeEvaluate params ctx
  | .targetObjects => targetObjectsNodeEvaluate w params ctx
  | .targetPolicy => targetPolicyNodeEvaluate w params ctx
  | .buildInterface => oneNodeEvaluate params ctx
  | .installInterface => zeroNodeEvaluate params ctx
  | .installPrefix => installPrefixNodeEvaluate params ctx
  | .join => joinNodeEvaluate params ctx
  | .linkOnly =>
    -- A null checker dereference is undefined behaviour (see
    -- linkOnlyEvaluate); the driver coalesces it arbitrarily to "".
    ((linkOnlyEvaluate params dag).getD "", ctx)

/-- The per-child walk of `ProcessArbitraryContent` within one parameter
    group: literal-input check before each child, then evaluation with the
    error bail-out, accumulating into the running result. -/
def arbChildLoop (kind : NodeKind) (ev : EvalFun) (dag : Option DagChecker)
    (identifier : String) :
    List GenExEvaluator → String → Ctx → Option String × Ctx
  | [], acc, ctx => (some acc, ctx)
  | c :: rest, acc, ctx =>
    if kind.requiresLiteralInput && !c.isText then
      (none, reportError ctx ("$<" ++ identifier ++ "> expression requires literal input."))
    else
      let (s, ctx') := ev c ctx dag
      if ctx'.hadError then (none, ctx')
      else arbChildLoop kind ev dag identifier rest (acc ++ s) ctx'

/-- The group walk of `ProcessArbitraryContent`: a literal comma is appended
    after every group except the last. -/
def arbGroupsLoop (kind : NodeKind) (ev : EvalFun) (dag : Option DagChecker)
    (identifier : String) :
    List (List GenExEvaluator) → String → Ctx → Option String × Ctx
  | [], acc, ctx => (some acc, ctx)
  | g :: rest, acc, ctx =>
    match arbChildLoop kind ev dag identifier g acc ctx with
    | (none, ctx') => (none, ctx')
    | (some acc', ctx') =>
      let acc'' := if rest.isEmpty then acc' else acc' ++ ","
      arbGroupsLoop kind ev dag identifier rest acc'' ctx'

/-- `GeneratorExpressionContent::ProcessArbitraryContent` (from the given
    group iterator to the end); for a literal-input node the joined result is
    passed through the node's own `Evaluate`. -/
def processArbitraryContentF (w : World) (ev : EvalFun) (kind : NodeKind)
    (identifier : String) (ctx : Ctx) (dag : Option DagChecker)
    (groups : List (List GenExEvaluator)) : String × Ctx :=
  match arbGroupsLoop kind ev dag identifier groups "" ctx with
  | (none, ctx') => ("", ctx')
  | (some result, ctx') =>
    if kind.requiresLiteralInput then nodeEvaluateF w ev kind [result] ctx' dag
    else (result, ctx')

/-- The counting loop of `EvaluateParameters`: group `counter == numExpected`
    of an arbitrary-content node diverts to `ProcessArbitraryContent` and
    returns immediately; an error inside a normal group likewise returns
    immediately (the Boolean marks such early returns, which skip the arity
    checks). -/
def paramsLoop (w : World) (ev : EvalFun) (kind : NodeKind) (identifier : String)
    (dag : Option DagChecker) :
    List (List GenExEvaluator) → Nat → List String → Ctx → List String × Ctx × Bool
  | [], _, params, ctx => (params, ctx, false)
  | g :: rest, counter, params, ctx =>
    if kind.acceptsArbitraryContent && (counter : Int) == kind.numExpectedParameters then
      let (lastParam, ctx') := processArbitraryContentF w ev kind identifier ctx dag (g :: rest)
      (params ++ [lastParam], ctx', true)
    else
      match childConcatLoop ev dag g "" ctx with
      | (none, ctx') => (params, ctx', true)
      | (some s, ctx') =>
        paramsLoop w ev kind identifier dag rest (counter + 1) (params ++ [s]) ctx'

/-- `GeneratorExpressionContent::EvaluateParameters`: the counting loop
    followed by the arity diagnostics (note that the exact-arity branch is
    only reachable for positive arities, so its `numExpected == 0` message is
    dead, mirroring the source). -/
def evaluateParametersF (w : World) (ev : EvalFun) (kind : NodeKind)
    (identifier : String) (pc : List (List GenExEvaluator)) (ctx : Ctx)
    (dag : Option DagChecker) : List String × Ctx :=
  let numExpected := kind.numExpectedParameters
  match paramsLoop w ev kind identifier dag pc 1 [] ctx with
  | (params, ctx, true) => (params, ctx)
  | (params, ctx, false) =>
    if 0 < numExpected ∧ numExpected ≠ (params.length : Int) then
      (params, reportError ctx
        (if numExpected = 0 then
          "$<" ++ identifier ++ "> expression requires no parameters."
        else if numExpected = 1 then
          "$<" ++ identifier ++ "> expression requires exactly one parameter."
        else
          "$<" ++ identifier ++ "> expression requires " ++ toString numExpected ++
            " comma separated parameters, but got " ++ toString params.length ++ " instead."))
    else
      let ctx := if numExpected = -1 ∧ params.isEmpty then
          reportError ctx
            ("$<" ++ identifier ++ "> expression requires at least one parameter.")
        else ctx
      let ctx := if numExpected = -2 ∧ params.length > 1 then
          reportError ctx
            ("$<" ++ identifier ++ "> expression requires one or zero parameters.")
        else ctx
      (params, ctx)

/-- `GeneratorExpressionContent::Evaluate`: identifier assembly with the
    error bail-out, registry lookup, the non-generating shortcut, parameter
    evaluation and node dispatch. -/
def contentEvaluateF (w : World) (ev : EvalFun) (ic : List GenExEvaluator)
    (pc : List (List GenExEvaluator)) (ctx : Ctx) (dag : Option DagChecker) :
    String × Ctx :=
  match childConcatLoop ev dag ic "" ctx with
  | (none, ctx) => ("", ctx)
  | (some identifier, ctx) =>
    match getNode identifier with
    | none => ("", reportError ctx
        "Expression did not evaluate to a known generator expression")
    | some node =>
      if !node.generatesContent then
        if node.numExpectedParameters == 1 && node.acceptsArbitraryContent then
          if pc.isEmpty then
            ("", reportError ctx ("$<" ++ identifier ++ "> expression requires a parameter."))
          else ("", ctx)
        else
          let (_, ctx) := evaluateParametersF w ev node identifier pc ctx dag
          ("", ctx)
      else
        let (params, ctx) := evaluateParametersF w ev node identifier pc ctx dag
        if ctx.hadError then ("", ctx)
        else nodeEvaluateF w ev node params ctx dag

/-- The fuel-indexed evaluator: a text leaf yields its bytes
    (`TextContent::Evaluate`), a compound node runs the driver with the
    recursive evaluator at one unit less fuel; at fuel 0 evaluation yields
    the empty string with the context untouched. -/
def evaluate (w : World) : Nat → GenExEvaluator → Ctx → Option DagChecker → String × Ctx
  | 0, _, ctx, _ => ("", ctx)
  | _ + 1, .text s, ctx, _ => (s, ctx)
  | n + 1, .content ic pc, ctx, dag =>
    contentEvaluateF w (fun e c d => evaluate w n e c d) ic pc ctx dag

/-- Sequential normal evaluation of a list of parameter groups (the claim
    side's "parameters 1..N-1 are evaluated normally in order"): each group
    concatenates its children's evaluations as in `EvaluateParameters`; the
    walk stops early once the error flag is set. -/
def evalGroupsF (ev : EvalFun) (dag : Option DagChecker) :
    List (List GenExEvaluator) → List String → Ctx → List String × Ctx
  | [], params, ctx => (params, ctx)
  | g :: rest, params, ctx =>
    match childConcatLoop ev dag g "" ctx with
    | (none, ctx') => (params, ctx')
    | (some s, ctx') => evalGroupsF ev dag rest (params ++ [s]) ctx'

/-! ## Concrete worlds and contexts used to instantiate the theorems -/

/-- A world with no targets, no definitions and NEW policies. -/
def trivialWorld : World where
  getSafeDefinition := fun _ => ""
  getDefinition := fun _ => none
  policyStatusCMP0043 := .new
  policyStatusCMP0044 := .new
  isAlias := fun _ => false
  findTargetToUse := fun _ => none
  findGeneratorTargetToUse := fun _ => none
  isValidTargetName := fun s => s != ""
  targetType := fun _ => .executable
  isImported := fun _ => false
  isDLLPlatform := fun _ => false
  isLinkable := fun _ => false
  hasImportLibrary := fun _ => false
  linkLanguagePropagatesToDependents := fun _ => false
  getLinkerLanguage := fun _ _ => ""
  getProperty := fun _ _ => none
  getMappedConfig := fun _ _ => false
  getDirectory := fun _ _ => ""
  getSOName := fun _ _ => ""
  getFullPath := fun _ _ _ _ => ""
  transitivePropertyTargets := fun _ _ _ => []
  linkImplementationLibraries := fun _ _ => none
  isLinkInterfaceDependentBoolProperty := fun _ _ _ => false
  getLinkInterfaceDependentBoolProperty := fun _ _ _ => false
  isLinkInterfaceDependentStringProperty := fun _ _ _ => false
  getLinkInterfaceDependentStringProperty := fun _ _ _ => none
  isLinkInterfaceDependentNumberMinProperty := fun _ _ _ => false
  getLinkInterfaceDependentNumberMinProperty := fun _ _ _ => none
  isLinkInterfaceDependentNumberMaxProperty := fun _ _ _ => false
  getLinkInterfaceDependentNumberMaxProperty := fun _ _ _ => none
  getObjectSources := fun _ _ => []
  computeObjectFilename := fun _ s => s
  objectDirectory := fun _ => ""
  compileFeatureKnown := fun _ _ => .error "unknown feature"
  compileFeaturesAvailable := fun _ => .error "no features"
  haveFeatureAvailable := fun _ _ _ => false
  transitiveBase := ["COMPILE_DEFINITIONS"]
  targetPolicies := ["CMP0003"]
  policyStatusForTarget := fun _ _ => .new
  dagCheck := fun _ => .dag
  parse := fun st => [.text st]
  getPolicyWarning := fun _ => ""

/-- A plain starting context: config Debug, head and current target `app`. -/
def ctx0 : Ctx := freshCtx "Debug" false (some "app") (some "app")

/-- `ctx0` with the sticky error flag already set. -/
def ctxErr : Ctx := { ctx0 with hadError := true }

/-- The world of spec scenario 5: `lib` has
    `INTERFACE_COMPILE_DEFINITIONS=FOO` and one transitive link-interface
    target `libdep` with `INTERFACE_COMPILE_DEFINITIONS=BAR`; the parser maps
    a plain string to its text leaf; the DAG check always proceeds. -/
def scenario5World : World :=
  { trivialWorld with
    findTargetToUse := fun n => if n = "lib" ∨ n = "libdep" then some n else none
    targetType := fun _ => .staticLibrary
    getProperty := fun t p =>
      if p = "INTERFACE_COMPILE_DEFINITIONS" then
        (if t = "lib" then some "FOO" else if t = "libdep" then some "BAR" else none)
      else none
    transitivePropertyTargets := fun t _ _ => if t = "lib" then ["libdep"] else [] }

/-- A world whose stored `CMAKE_SYSTEM_NAME` is `Linux` and whose stored C
    compiler id is `GNU`, with CMP0044 at OLD. -/
def platformWorld : World :=
  { trivialWorld with
    getSafeDefinition := fun k =>
      if k = "CMAKE_SYSTEM_NAME" then "Linux"
      else if k = "CMAKE_C_COMPILER_ID" then "GNU" else ""
    policyStatusCMP0044 := .old }

/-- A world that reports a cyclic reference for every pushed DAG frame. -/
def cyclicWorld : World :=
  { scenario5World with dagCheck := fun _ => .cyclicReference }

/-! ## Context-evolution invariant

`CtxEvolves a b` says that, going from context `a` to context `b`:
the context-sensitive flag is set exactly when it was set before or a
primary context-sensitive site was executed in between (ghost event counter
increased); the event counter never decreases; and the error flag is never
cleared. -/

def CtxEvolves (a b : Ctx) : Prop :=
  (b.hadContextSensitiveCondition = true ↔
    (a.hadContextSensitiveCondition = true ∨ a.cscEvents < b.cscEvents))
  ∧ a.cscEvents ≤ b.cscEvents
  ∧ (a.hadError = true → b.hadError = true)

/-- Invariant of an evaluation function: every call evolves its context. -/
def EvalInv (ev : EvalFun) : Prop :=
  ∀ e ctx dag, CtxEvolves ctx (ev e ctx dag).2

theorem ctxEvolves_refl (a : Ctx) : CtxEvolves a a := by
  refine ⟨?_, le_refl _, fun h => h⟩
  simp

theorem ctxEvolves_trans {a b c : Ctx} (h1 : CtxEvolves a b) (h2 : CtxEvolves b c) :
    CtxEvolves a c := by
  obtain ⟨i1, l1, e1⟩ := h1
  obtain ⟨i2, l2, e2⟩ := h2
  refine ⟨?_, le_trans l1 l2, fun h => e2 (e1 h)⟩
  rw [i2, i1]
  constructor
  · rintro ((h | h) | h)
    · exact Or.inl h
    · exact Or.inr (lt_of_lt_of_le h l2)
    · exact Or.inr (lt_of_le_of_lt l1 h)
  · rintro (h | h)
    · exact Or.inl (Or.inl h)
    · rcases Nat.lt_or_ge a.cscEvents b.cscEvents with h' | h'
      · exact Or.inl (Or.inr h')
      · have hab : a.cscEvents = b.cscEvents := le_antisymm l1 h'
        exact Or.inr (hab ▸ h)

/-- Updates that touch neither the context-sensitive flag, the event counter,
    nor clear the error flag, evolve the context. -/
theorem ctxEvolves_plain {a b : Ctx}
    (hc : b.hadContextSensitiveCondition = a.hadContextSensitiveCondition)
    (he : b.cscEvents = a.cscEvents)
    (hh : a.hadError = true → b.hadError = true) : CtxEvolves a b := by
  refine ⟨?_, he.ge, hh⟩
  rw [hc, he]
  simp

theorem reportError_hCSC (a : Ctx) (m : String) :
    (reportError a m).hadContextSensitiveCondition = a.hadContextSensitiveCondition := by
  unfold reportError
  dsimp only
  split <;> rfl

theorem reportError_cscEvents (a : Ctx) (m : String) :
    (reportError a m).cscEvents = a.cscEvents := by
  unfold reportError
  dsimp only
  split <;> rfl

theorem reportError_hadError (a : Ctx) (m : String) :
    (reportError a m).hadError = true := by
  unfold reportError
  dsimp only
  split <;> rfl

theorem ctxEvolves_reportError (a : Ctx) (m : String) : CtxEvolves a (reportError a m) :=
  ctxEvolves_plain (reportError_hCSC a m) (reportError_cscEvents a m)
    (fun _ => reportError_hadError a m)

theorem ctxEvolves_setCSC (a : Ctx) : CtxEvolves a (setCSC a) := by
  refine ⟨?_, Nat.le_succ _, fun h => h⟩
  constructor
  · intro _
    exact Or.inr (Nat.lt_succ_self _)
  · intro _
    rfl

theorem ctxEvolves_propagateCSC (a sub : Ctx)
    (hsub : sub.hadContextSensitiveCondition = true ↔ 0 < sub.cscEvents) :
    CtxEvolves a (propagateCSC a sub) := by
  unfold propagateCSC
  split
  · next h =>
    refine ⟨?_, Nat.le_add_right _ _, fun hh => hh⟩
    have hpos : 0 < sub.cscEvents := hsub.mp h
    constructor
    · intro _
      exact Or.inr (Nat.lt_add_of_pos_right hpos)
    · intro _
      rfl
  · exact ctxEvolves_refl a

theorem ctxEvolves_addWarning (a : Ctx) : CtxEvolves a (addWarning a) :=
  ctxEvolves_plain rfl rfl (fun h => h)

theorem ctxEvolves_addAllTarget (a : Ctx) (t : String) : CtxEvolves a (addAllTarget a t) := by
  unfold addAllTarget
  split
  · exact ctxEvolves_refl a
  · exact ctxEvolves_plain rfl rfl (fun h => h)

theorem ctxEvolves_addDependTarget (a : Ctx) (t : String) :
    CtxEvolves a (addDependTarget a t) := by
  unfold addDependTarget
  split
  · exact ctxEvolves_refl a
  · exact ctxEvolves_plain rfl rfl (fun h => h)

theorem ctxEvolves_addSeenTargetProperty (a : Ctx) (p : String) :
    CtxEvolves a (addSeenTargetProperty a p) := by
  unfold addSeenTargetProperty
  split
  · exact ctxEvolves_refl a
  · exact ctxEvolves_plain rfl rfl (fun h => h)

theorem ctxEvolves_setMaxLanguageStandard (a : Ctx) (t lang l : String) :
    CtxEvolves a (setMaxLanguageStandard a t lang l) :=
  ctxEvolves_plain rfl rfl (fun h => h)

/-! ### Per-node evolution lemmas -/

theorem ctxEvolves_booleanOp (op sv fv : String) (ps : List String) (ctx : Ctx) :
    CtxEvolves ctx (booleanOpEvaluate op sv fv ps ctx).2 := by
  induction ps with
  | nil => exact ctxEvolves_refl _
  | cons p rest ih =>
    unfold booleanOpEvaluate
    repeat' split
    all_goals first
      | exact ctxEvolves_refl _
      | exact ctxEvolves_reportError _ _
      | exact ih

theorem ctxEvolves_notNode (ps : List String) (ctx : Ctx) :
    CtxEvolves ctx (notNodeEvaluate ps ctx).2 := by
  unfold notNodeEvaluate
  dsimp only
  split
  · exact ctxEvolves_reportError _ _
  · exact ctxEvolves_refl _

theorem ctxEvolves_equalNode (ps : List String) (ctx : Ctx) :
    CtxEvolves ctx (equalNodeEvaluate ps ctx).2 := by
  unfold equalNodeEvaluate
  dsimp only
  repeat' split
  all_goals first
    | exact ctxEvolves_refl _
    | exact ctxEvolves_reportError _ _

theorem ctxEvolves_compilerIdWithLang (w : World) (ps : List String) (ctx : Ctx)
    (lang : String) : CtxEvolves ctx (compilerIdEvaluateWithLanguage w ps ctx lang).2 := by
  unfold compilerIdEvaluateWithLanguage
  dsimp only
  repeat' split
  all_goals first
    | exact ctxEvolves_refl _
    | exact ctxEvolves_reportError _ _
    | exact ctxEvolves_addWarning _

theorem ctxEvolves_cCompilerId (w : World) (ps : List String) (ctx : Ctx) :
    CtxEvolves ctx (cCompilerIdNodeEvaluate w ps ctx).2 := by
  unfold cCompilerIdNodeEvaluate
  split
  · exact ctxEvolves_reportError _ _
  · exact ctxEvolves_compilerIdWithLang _ _ _ _

theorem ctxEvolves_cxxCompilerId (w : World) (ps : List String) (ctx : Ctx) :
    CtxEvolves ctx (cxxCompilerIdNodeEvaluate w ps ctx).2 := by
  unfold cxxCompilerIdNodeEvaluate
  split
  · exact ctxEvolves_reportError _ _
  · exact ctxEvolves_compilerIdWithLang _ _ _ _

theorem ctxEvolves_compilerVersionWithLang (w : World) (ps : List String) (ctx : Ctx)
    (lang : String) :
    CtxEvolves ctx (compilerVersionEvaluateWithLanguage w ps ctx lang).2 := by
  unfold compilerVersionEvaluateWithLanguage
  dsimp only
  repeat' split
  all_goals first
    | exact ctxEvolves_refl _
    | exact ctxEvolves_reportError _ _

theorem ctxEvolves_cCompilerVersion (w : World) (ps : List String) (ctx : Ctx) :
    CtxEvolves ctx (cCompilerVersionNodeEvaluate w ps ctx).2 := by
  unfold cCompilerVersionNodeEvaluate
  split
  · exact ctxEvolves_reportError _ _
  · exact ctxEvolves_compilerVersionWithLang _ _ _ _

theorem ctxEvolves_cxxCompilerVersion (w : World) (ps : List String) (ctx : Ctx) :
    CtxEvolves ctx (cxxCompilerVersionNodeEvaluate w ps ctx).2 := by
  unfold cxxCompilerVersionNodeEvaluate
  split
  · exact ctxEvolves_reportError _ _
  · exact ctxEvolves_compilerVersionWithLang _ _ _ _

theorem ctxEvolves_platformId (w : World) (ps : List String) (ctx : Ctx) :
    CtxEvolves ctx (platformIdNodeEvaluate w ps ctx).2 := by
  unfold platformIdNodeEvaluate
  dsimp only
  repeat' split
  all_goals exact ctxEvolves_refl _

theorem ctxEvolves_configurationNode (ctx : Ctx) :
    CtxEvolves ctx (configurationNodeEvaluate ctx).2 :=
  ctxEvolves_setCSC _

theorem ctxEvolves_configurationTest (w : World) (ps : List String) (ctx : Ctx) :
    CtxEvolves ctx (configurationTestNodeEvaluate w ps ctx).2 := by
  unfold configurationTestNodeEvaluate
  dsimp only
  repeat' split
  all_goals first
    | exact ctxEvolves_configurationNode _
    | exact ctxEvolves_reportError _ _
    | exact ctxEvolves_setCSC _

theorem ctxEvolves_installPrefix (ps : List String) (ctx : Ctx) :
    CtxEvolves ctx (installPrefixNodeEvaluate ps ctx).2 :=
  ctxEvolves_reportError _ _

theorem ctxEvolves_targetPolicyLoop (w : World) (head p : String) (ctx : Ctx)
    (l : List String) : CtxEvolves ctx (targetPolicyLoop w head p ctx l).2 := by
  induction l with
  | nil => exact ctxEvolves_reportError _ _
  | cons pol rest ih =>
    unfold targetPolicyLoop
    repeat' split
    all_goals first
      | exact ctxEvolves_refl _
      | exact ctxEvolves_addWarning _
      | exact ih

theorem ctxEvolves_targetPolicy (w : World) (ps : List String) (ctx : Ctx) :
    CtxEvolves ctx (targetPolicyNodeEvaluate w ps ctx).2 := by
  unfold targetPolicyNodeEvaluate
  split
  · exact ctxEvolves_reportError _ _
  · exact ctxEvolves_trans (ctxEvolves_setCSC _) (ctxEvolves_targetPolicyLoop _ _ _ _ _)

/-- Evolution for the feature-availability walk, whichever way it exits. -/
theorem ctxEvolves_cfCheckFeats (w : World) (t lang : String) (evalLL : Bool)
    (fs : List String) (ctx : Ctx) :
    CtxEvolves ctx (match cfCheckFeats w t lang evalLL fs ctx with
      | .error c => c
      | .ok c => c) := by
  induction fs generalizing ctx with
  | nil => exact ctxEvolves_refl _
  | cons f rest ih =>
    simp only [cfCheckFeats]
    by_cases h1 : (!w.haveFeatureAvailable t lang f) = true
    · rw [if_pos h1]
      by_cases h2 : evalLL = true
      · rw [if_pos h2]
        exact ctxEvolves_trans (ctxEvolves_setMaxLanguageStandard _ _ _ _) (ih _)
      · rw [if_neg h2]
        exact ctxEvolves_refl _
    · rw [if_neg h1]
      exact ih _

theorem ctxEvolves_cfCheckAll (w : World) (t : String) (evalLL : Bool)
    (tested : List (String × List String)) (ctx : Ctx) :
    CtxEvolves ctx (match cfCheckAll w t evalLL tested ctx with
      | .error c => c
      | .ok c => c) := by
  induction tested generalizing ctx with
  | nil => exact ctxEvolves_refl _
  | cons e rest ih =>
    obtain ⟨lang, feats⟩ := e
    unfold cfCheckAll
    have hfeats := ctxEvolves_cfCheckFeats w t lang evalLL feats ctx
    cases h : cfCheckFeats w t lang evalLL feats ctx with
    | error c =>
      rw [h] at hfeats
      exact hfeats
    | ok c =>
      rw [h] at hfeats
      exact ctxEvolves_trans hfeats (ih c)

theorem ctxEvolves_compileFeatures (w : World) (ps : List String) (ctx : Ctx)
    (dag : Option DagChecker) :
    CtxEvolves ctx (compileFeaturesNodeEvaluate w ps ctx dag).2 := by
  unfold compileFeaturesNodeEvaluate
  split
  · exact ctxEvolves_reportError _ _
  · next target _ =>
    split
    · exact ctxEvolves_reportError _ _
    · next tested _ =>
      have hall := ctxEvolves_cfCheckAll w target (dagEvaluatingLinkLibraries dag) tested ctx
      cases h : cfCheckAll w target (dagEvaluatingLinkLibraries dag) tested ctx with
      | error c =>
        rw [h] at hall
        exact hall
      | ok c =>
        rw [h] at hall
        exact hall

theorem ctxEvolves_targetObjects (w : World) (ps : List String) (ctx : Ctx) :
    CtxEvolves ctx (targetObjectsNodeEvaluate w ps ctx).2 := by
  unfold targetObjectsNodeEvaluate
  dsimp only
  repeat' split
  all_goals first
    | exact ctxEvolves_refl _
    | exact ctxEvolves_reportError _ _

theorem ctxEvolves_artifactCreate (w : World) (linker soname : Bool) (target : String)
    (ctx : Ctx) : CtxEvolves ctx (artifactCreate w linker soname target ctx).2 := by
  unfold artifactCreate
  repeat' split
  all_goals first
    | exact ctxEvolves_refl _
    | exact ctxEvolves_reportError _ _

theorem ctxEvolves_targetFilesystemArtifact (w : World) (linker soname dirQual nameQual : Bool)
    (ps : List String) (ctx : Ctx) (dag : Option DagChecker) :
    CtxEvolves ctx (targetFilesystemArtifactEvaluate w linker soname dirQual nameQual ps ctx dag).2 := by
  unfold targetFilesystemArtifactEvaluate
  dsimp only
  split
  · exact ctxEvolves_reportError _ _
  · split
    · exact ctxEvolves_reportError _ _
    · next target _ =>
      split
      · exact ctxEvolves_reportError _ _
      · split
        · exact ctxEvolves_reportError _ _
        · have h1 : CtxEvolves ctx (addAllTarget (addDependTarget ctx target) target) :=
            ctxEvolves_trans (ctxEvolves_addDependTarget _ _) (ctxEvolves_addAllTarget _ _)
          have h2 := ctxEvolves_artifactCreate w linker soname target
            (addAllTarget (addDependTarget ctx target) target)
          cases h : artifactCreate w linker soname target
            (addAllTarget (addDependTarget ctx target) target) with
          | mk result ctx2 =>
            rw [h] at h2
            split
            · exact ctxEvolves_trans h1 h2
            · exact ctxEvolves_trans h1 h2

/-! ### Driver evolution lemmas -/

theorem ctxEvolves_condReport (a : Ctx) (cond : Prop) [Decidable cond] (m : String) :
    CtxEvolves a (if cond then reportError a m else a) := by
  split
  · exact ctxEvolves_reportError _ _
  · exact ctxEvolves_refl _

theorem ctxEvolves_childConcatLoop {ev : EvalFun} (hev : EvalInv ev)
    (dag : Option DagChecker) (cs : List GenExEvaluator) (acc : String) (ctx : Ctx) :
    CtxEvolves ctx (childConcatLoop ev dag cs acc ctx).2 := by
  induction cs generalizing acc ctx with
  | nil => exact ctxEvolves_refl _
  | cons c rest ih =>
    have h1 := hev c ctx dag
    simp only [childConcatLoop]
    cases h : ev c ctx dag with
    | mk s ctx' =>
      rw [h] at h1
      dsimp only
      split
      · exact h1
      · exact ctxEvolves_trans h1 (ih _ _)

theorem ctxEvolves_compiledLoop {ev : EvalFun} (hev : EvalInv ev)
    (dag : Option DagChecker) (cs : List GenExEvaluator) (acc : String) (ctx : Ctx) :
    CtxEvolves ctx (compiledLoop ev dag cs acc ctx).2 := by
  induction cs generalizing acc ctx with
  | nil => exact ctxEvolves_refl _
  | cons c rest ih =>
    have h1 := hev c ctx dag
    simp only [compiledLoop]
    cases h : ev c ctx dag with
    | mk s ctx' =>
      rw [h] at h1
      dsimp only
      split
      · exact h1
      · exact ctxEvolves_trans h1 (ih _ _)

theorem ctxEvolves_evaluateCompiledF {ev : EvalFun} (hev : EvalInv ev)
    (evaluators : List GenExEvaluator) (config : String) (quiet : Bool)
    (head current : Option String) (dag : Option DagChecker) :
    CtxEvolves (freshCtx config quiet head current)
      (evaluateCompiledF ev evaluators config quiet head current dag).2 :=
  ctxEvolves_compiledLoop hev dag evaluators "" _

/-- The context of a compiled sub-evaluation starts fresh, so its flag is set
    exactly when it recorded a context-sensitive event. -/
theorem evaluateCompiledF_hCSC {ev : EvalFun} (hev : EvalInv ev)
    (evaluators : List GenExEvaluator) (config : String) (quiet : Bool)
    (head current : Option String) (dag : Option DagChecker) :
    ((evaluateCompiledF ev evaluators config quiet head current dag).2.hadContextSensitiveCondition
      = true ↔
      0 < (evaluateCompiledF ev evaluators config quiet head current dag).2.cscEvents) := by
  have h := (ctxEvolves_evaluateCompiledF hev evaluators config quiet head current dag).1
  simpa [freshCtx] using h

theorem ctxEvolves_getLinkedTargetsContentF {ev : EvalFun} (hev : EvalInv ev)
    (targets : List String) (target headTarget : String) (ctx : Ctx) (dc : DagChecker)
    (ipn : String) :
    CtxEvolves ctx (getLinkedTargetsContentF ev targets target headTarget ctx dc ipn).2 := by
  unfold getLinkedTargetsContentF
  dsimp only
  have hs := evaluateCompiledF_hCSC hev
    (synthLinkedAst (targets.filter (fun t => t ≠ target)) ipn)
    ctx.config ctx.quiet (some headTarget) (some target) (some dc)
  cases h : evaluateCompiledF ev (synthLinkedAst (targets.filter (fun t => t ≠ target)) ipn)
      ctx.config ctx.quiet (some headTarget) (some target) (some dc) with
  | mk out sub =>
    rw [h] at hs
    exact ctxEvolves_propagateCSC _ _ hs

theorem ctxEvolves_targetPropertyLinkedContent {ev : EvalFun} (hev : EvalInv ev)
    (w : World) (tgt propertyName ipn headTarget : String) (ctx : Ctx) (dc : DagChecker) :
    CtxEvolves ctx (targetPropertyLinkedContent w ev tgt propertyName ipn headTarget ctx dc).2 := by
  unfold targetPropertyLinkedContent
  dsimp only
  repeat' split
  all_goals first
    | exact ctxEvolves_refl _
    | exact ctxEvolves_getLinkedTargetsContentF hev _ _ _ _ _ _

theorem ctxEvolves_targetPropertyFinishF {ev : EvalFun} (hev : EvalInv ev)
    (w : World) (tgt p linked headTarget : String) (ctx : Ctx) (dc : DagChecker)
    (ipn : String) :
    CtxEvolves ctx (targetPropertyFinishF w ev tgt p linked headTarget ctx dc ipn).2 := by
  unfold targetPropertyFinishF
  split
  · dsimp only
    have hs := evaluateCompiledF_hCSC hev (w.parse p) ctx.config ctx.quiet
      (some headTarget) (some tgt) (some dc)
    cases h : evaluateCompiledF ev (w.parse p) ctx.config ctx.quiet
        (some headTarget) (some tgt) (some dc) with
    | mk result0 sub =>
      rw [h] at hs
      exact ctxEvolves_propagateCSC _ _ hs
  · exact ctxEvolves_refl _

theorem ctxEvolves_targetPropertyMainF {ev : EvalFun} (hev : EvalInv ev)
    (w : World) (tgt propertyName : String) (ctx : Ctx) (dagParent : Option DagChecker)
    (dc : DagChecker) :
    CtxEvolves ctx (targetPropertyMainF w ev tgt propertyName ctx dagParent dc).2 := by
  unfold targetPropertyMainF
  dsimp only
  have hl := ctxEvolves_targetPropertyLinkedContent hev w tgt propertyName
    (computeInterfaceName w propertyName) (ctx.headTarget.getD tgt) ctx dc
  cases h : targetPropertyLinkedContent w ev tgt propertyName
      (computeInterfaceName w propertyName) (ctx.headTarget.getD tgt) ctx dc with
  | mk linked0 ctx1 =>
    rw [h] at hl
    dsimp only
    split
    · repeat' split
      all_goals first
        | exact hl
        | exact ctxEvolves_trans hl (ctxEvolves_setCSC _)
    · repeat' split
      all_goals first
        | exact ctxEvolves_trans hl (ctxEvolves_setCSC _)
        | exact ctxEvolves_trans hl (ctxEvolves_targetPropertyFinishF hev _ _ _ _ _ _ _ _)

theorem ctxEvolves_targetPropertyContinueF {ev : EvalFun} (hev : EvalInv ev)
    (w : World) (tgt propertyName : String) (ctx : Ctx) (dagParent : Option DagChecker)
    (dc : DagChecker) :
    CtxEvolves ctx (targetPropertyContinueF w ev tgt propertyName ctx dagParent dc).2 := by
  unfold targetPropertyContinueF
  repeat' split
  all_goals first
    | exact ctxEvolves_reportError _ _
    | exact ctxEvolves_refl _
    | exact ctxEvolves_targetPropertyMainF hev _ _ _ _ _ _

theorem ctxEvolves_targetPropertyAfterResolve {ev : EvalFun} (hev : EvalInv ev)
    (w : World) (tgt propertyName : String) (ctx : Ctx) (dagParent : Option DagChecker) :
    CtxEvolves ctx (targetPropertyAfterResolve w ev tgt propertyName ctx dagParent).2 := by
  unfold targetPropertyAfterResolve
  dsimp only
  have hseen : CtxEvolves ctx
      (if some tgt = ctx.headTarget then addSeenTargetProperty ctx propertyName else ctx) := by
    split
    · exact ctxEvolves_addSeenTargetProperty _ _
    · exact ctxEvolves_refl _
  generalize hctx1 :
    (if some tgt = ctx.headTarget then addSeenTargetProperty ctx propertyName else ctx) = ctx1
  rw [hctx1] at hseen
  repeat' split
  all_goals first
    | exact ctxEvolves_trans hseen (ctxEvolves_reportError _ _)
    | exact hseen
    | exact ctxEvolves_trans hseen (ctxEvolves_targetPropertyContinueF hev _ _ _ _ _ _)

theorem ctxEvolves_targetPropertyNode {ev : EvalFun} (hev : EvalInv ev)
    (w : World) (params : List String) (ctx : Ctx) (dagParent : Option DagChecker) :
    CtxEvolves ctx (targetPropertyNodeEvaluateF w ev params ctx dagParent).2 := by
  unfold targetPropertyNodeEvaluateF
  repeat' split
  all_goals first
    | exact ctxEvolves_reportError _ _
    | exact ctxEvolves_refl _
    | exact ctxEvolves_targetPropertyAfterResolve hev _ _ _ _ _
    | exact ctxEvolves_trans (ctxEvolves_addAllTarget _ _)
        (ctxEvolves_targetPropertyAfterResolve hev _ _ _ _ _)

theorem ctxEvolves_nodeEvaluateF {ev : EvalFun} (hev : EvalInv ev)
    (w : World) (kind : NodeKind) (params : List String) (ctx : Ctx)
    (dag : Option DagChecker) :
    CtxEvolves ctx (nodeEvaluateF w ev kind params ctx dag).2 := by
  cases kind with
  | zero => exact ctxEvolves_refl _
  | one => exact ctxEvolves_refl _
  | andOp => exact ctxEvolves_booleanOp "AND" "1" "0" params ctx
  | orOp => exact ctxEvolves_booleanOp "OR" "0" "1" params ctx
  | notOp => exact ctxEvolves_notNode _ _
  | cCompilerId => exact ctxEvolves_cCompilerId _ _ _
  | cxxCompilerId => exact ctxEvolves_cxxCompilerId _ _ _
  | versionGreaterOp => exact ctxEvolves_refl _
  | versionLessOp => exact ctxEvolves_refl _
  | versionEqualOp => exact ctxEvolves_refl _
  | cCompilerVersion => exact ctxEvolves_cCompilerVersion _ _ _
  | cxxCompilerVersion => exact ctxEvolves_cxxCompilerVersion _ _ _
  | platformId => exact ctxEvolves_platformId _ _ _
  | compileFeatures => exact ctxEvolves_compileFeatures _ _ _ _
  | configuration => exact ctxEvolves_configurationNode _
  | configurationTest => exact ctxEvolves_configurationTest _ _ _
  | artifact l s d n => exact ctxEvolves_targetFilesystemArtifact _ _ _ _ _ _ _ _
  | strEqual => exact ctxEvolves_refl _
  | equal => exact ctxEvolves_equalNode _ _
  | lowerCase => exact ctxEvolves_refl _
  | upperCase => exact ctxEvolves_refl _
  | makeCId => exact ctxEvolves_refl _
  | boolOp => exact ctxEvolves_refl _
  | angleR => exact ctxEvolves_refl _
  | comma => exact ctxEvolves_refl _
  | semicolon => exact ctxEvolves_refl _
  | targetProperty => exact ctxEvolves_targetPropertyNode hev _ _ _ _
  | targetName => exact ctxEvolves_refl _
  | targetObjects => exact ctxEvolves_targetObjects _ _ _
  | targetPolicy => exact ctxEvolves_targetPolicy _ _ _
  | buildInterface => exact ctxEvolves_refl _
  | installInterface => exact ctxEvolves_refl _
  | installPrefix => exact ctxEvolves_installPrefix params ctx
  | join => exact ctxEvolves_refl _
  | linkOnly => exact ctxEvolves_refl _

theorem ctxEvolves_arbChildLoop {ev : EvalFun} (hev : EvalInv ev)
    (kind : NodeKind) (dag : Option DagChecker) (identifier : String)
    (cs : List GenExEvaluator) (acc : String) (ctx : Ctx) :
    CtxEvolves ctx (arbChildLoop kind ev dag identifier cs acc ctx).2 := by
  induction cs generalizing acc ctx with
  | nil => exact ctxEvolves_refl _
  | cons c rest ih =>
    simp only [arbChildLoop]
    split
    · exact ctxEvolves_reportError _ _
    · have h1 := hev c ctx dag
      cases h : ev c ctx dag with
      | mk s ctx' =>
        rw [h] at h1
        dsimp only
        split
        · exact h1
        · exact ctxEvolves_trans h1 (ih _ _)

theorem ctxEvolves_arbGroupsLoop {ev : EvalFun} (hev : EvalInv ev)
    (kind : NodeKind) (dag : Option DagChecker) (identifier : String)
    (groups : List (List GenExEvaluator)) (acc : String) (ctx : Ctx) :
    CtxEvolves ctx (arbGroupsLoop kind ev dag identifier groups acc ctx).2 := by
  induction groups generalizing acc ctx with
  | nil => exact ctxEvolves_refl _
  | cons g rest ih =>
    simp only [arbGroupsLoop]
    have hg := ctxEvolves_arbChildLoop hev kind dag identifier g acc ctx
    cases h : arbChildLoop kind ev dag identifier g acc ctx with
    | mk o ctx' =>
      rw [h] at hg
      cases o with
      | none => exact hg
      | some acc' =>
        dsimp only
        exact ctxEvolves_trans hg (ih _ _)

theorem ctxEvolves_processArbitraryContentF {ev : EvalFun} (hev : EvalInv ev)
    (w : World) (kind : NodeKind) (identifier : String) (ctx : Ctx)
    (dag : Option DagChecker) (groups : List (List GenExEvaluator)) :
    CtxEvolves ctx (processArbitraryContentF w ev kind identifier ctx dag groups).2 := by
  unfold processArbitraryContentF
  have hg := ctxEvolves_arbGroupsLoop hev kind dag identifier groups "" ctx
  cases h : arbGroupsLoop kind ev dag identifier groups "" ctx with
  | mk o ctx' =>
    rw [h] at hg
    cases o with
    | none => exact hg
    | some result =>
      dsimp only
      split
      · exact ctxEvolves_trans hg (ctxEvolves_nodeEvaluateF hev _ _ _ _ _)
      · exact hg

theorem ctxEvolves_paramsLoop {ev : EvalFun} (hev : EvalInv ev)
    (w : World) (kind : NodeKind) (identifier : String) (dag : Option DagChecker)
    (pc : List (List GenExEvaluator)) (counter : Nat) (params : List String) (ctx : Ctx) :
    CtxEvolves ctx (paramsLoop w ev kind identifier dag pc counter params ctx).2.1 := by
  induction pc generalizing counter params ctx with
  | nil => exact ctxEvolves_refl _
  | cons g rest ih =>
    simp only [paramsLoop]
    split
    · have hp := ctxEvolves_processArbitraryContentF hev w kind identifier ctx dag (g :: rest)
      cases h : processArbitraryContentF w ev kind identifier ctx dag (g :: rest) with
      | mk last ctx' =>
        rw [h] at hp
        exact hp
    · have hc := ctxEvolves_childConcatLoop hev dag g "" ctx
      cases h : childConcatLoop ev dag g "" ctx with
      | mk o ctx' =>
        rw [h] at hc
        cases o with
        | none => exact hc
        | some s =>
          dsimp only
          exact ctxEvolves_trans hc (ih _ _ _)

theorem ctxEvolves_evaluateParametersF {ev : EvalFun} (hev : EvalInv ev)
    (w : World) (kind : NodeKind) (identifier : String)
    (pc : List (List GenExEvaluator)) (ctx : Ctx) (dag : Option DagChecker) :
    CtxEvolves ctx (evaluateParametersF w ev kind identifier pc ctx dag).2 := by
  unfold evaluateParametersF
  dsimp only
  have hp := ctxEvolves_paramsLoop hev w kind identifier dag pc 1 [] ctx
  cases h : paramsLoop w ev kind identifier dag pc 1 [] ctx with
  | mk params rest =>
    cases rest with
    | mk ctx' early =>
      rw [h] at hp
      dsimp only at hp
      cases early with
      | true => exact hp
      | false =>
        dsimp only
        split
        · exact ctxEvolves_trans hp (ctxEvolves_reportError _ _)
        · exact ctxEvolves_trans hp
            (ctxEvolves_trans (ctxEvolves_condReport _ _ _) (ctxEvolves_condReport _ _ _))

theorem ctxEvolves_contentEvaluateF {ev : EvalFun} (hev : EvalInv ev)
    (w : World) (ic : List GenExEvaluator) (pc : List (List GenExEvaluator))
    (ctx : Ctx) (dag : Option DagChecker) :
    CtxEvolves ctx (contentEvaluateF w ev ic pc ctx dag).2 := by
  unfold contentEvaluateF
  have hc := ctxEvolves_childConcatLoop hev dag ic "" ctx
  cases h : childConcatLoop ev dag ic "" ctx with
  | mk o ctx1 =>
    rw [h] at hc
    cases o with
    | none => exact hc
    | some identifier =>
      dsimp only
      split
      · exact ctxEvolves_trans hc (ctxEvolves_reportError _ _)
      · next node _ =>
        split
        · split
          · split
            · exact ctxEvolves_trans hc (ctxEvolves_reportError _ _)
            · exact hc
          · have hp := ctxEvolves_evaluateParametersF hev w node identifier pc ctx1 dag
            cases h2 : evaluateParametersF w ev node identifier pc ctx1 dag with
            | mk params ctx2 =>
              rw [h2] at hp
              exact ctxEvolves_trans hc hp
        · have hp := ctxEvolves_evaluateParametersF hev w node identifier pc ctx1 dag
          cases h2 : evaluateParametersF w ev node identifier pc ctx1 dag with
          | mk params ctx2 =>
            rw [h2] at hp
            dsimp only
            split
            · exact ctxEvolves_trans hc hp
            · exact ctxEvolves_trans hc
                (ctxEvolves_trans hp (ctxEvolves_nodeEvaluateF hev _ _ _ _ _))

/-- Every evaluation, at every fuel, evolves its context. -/
theorem evalInv_evaluate (w : World) : ∀ n, EvalInv (fun e c d => evaluate w n e c d) := by
  intro n
  induction n with
  | zero =>
    intro e ctx dag
    exact ctxEvolves_refl _
  | succ n ih =>
    intro e ctx dag
    cases e with
    | text s => exact ctxEvolves_refl _
    | content ic pc => exact ctxEvolves_contentEvaluateF ih w ic pc ctx dag

/-- With the error flag already set, the compound driver returns the empty
    string: the first identifier child is followed by a flag check that bails
    out, and an empty identifier list leads to the unknown-identifier error
    which also returns empty. -/
theorem contentEvaluateF_hadError_empty {ev : EvalFun} (hev : EvalInv ev)
    (w : World) (ic : List GenExEvaluator) (pc : List (List GenExEvaluator))
    (ctx : Ctx) (dag : Option DagChecker) (h : ctx.hadError = true) :
    (contentEvaluateF w ev ic pc ctx dag).1 = "" := by
  unfold contentEvaluateF
  cases ic with
  | nil =>
    simp only [childConcatLoop]
    rfl
  | cons c rest =>
    have h1 := hev c ctx dag
    simp only [childConcatLoop]
    cases hc : ev c ctx dag with
    | mk s ctx' =>
      have herr : ctx'.hadError = true := by
        have h2 := h1.2.2
        rw [hc] at h2
        exact h2 h
      simp [herr]

/-- One-step unfolding of `evaluate` at a text leaf. -/
theorem evaluate_succ_text (w : World) (n : Nat) (s : String) (ctx : Ctx)
    (dag : Option DagChecker) : evaluate w (n + 1) (.text s) ctx dag = (s, ctx) := rfl

/-- One-step unfolding of `evaluate` at a compound node. -/
theorem evaluate_succ_content (w : World) (n : Nat) (ic : List GenExEvaluator)
    (pc : List (List GenExEvaluator)) (ctx : Ctx) (dag : Option DagChecker) :
    evaluate w (n + 1) (.content ic pc) ctx dag
      = contentEvaluateF w (fun e c d => evaluate w n e c d) ic pc ctx dag := rfl

/-- The identifier walk over a single text child. -/
theorem childConcatLoop_single_text {ev : EvalFun} (dag : Option DagChecker)
    (s acc : String) (ctx : Ctx) (hev : ev (.text s) ctx dag = (s, ctx)) :
    childConcatLoop ev dag [.text s] acc ctx
      = if ctx.hadError then (none, ctx) else (some (acc ++ s), ctx) := by
  simp only [childConcatLoop, hev]

/-! ## Claim theorems -/

/-- Claim C3: the had-error flag is sticky and short-circuiting.  First
    conjunct: `reportError` (through which every fatal error is raised) sets
    the flag and it is never cleared (`CtxEvolves`, third component, proved
    for every evaluation by `evalInv_evaluate`).  Second conjunct: once the
    flag is set, every `Evaluate` of a compound node returns the empty string
    and leaves the flag set, at every fuel. -/
theorem c3_had_error_sticky (w : World) :
    (∀ ctx m, (reportError ctx m).hadError = true) ∧
    (∀ (n : Nat) (ic : List GenExEvaluator) (pc : List (List GenExEvaluator))
        (ctx : Ctx) (dag : Option DagChecker), ctx.hadError = true →
      (evaluate w (n + 1) (.content ic pc) ctx dag).1 = "" ∧
      (evaluate w (n + 1) (.content ic pc) ctx dag).2.hadError = true) := by
  constructor
  · intro ctx m
    exact reportError_hadError ctx m
  · intro n ic pc ctx dag h
    constructor
    · exact contentEvaluateF_hadError_empty (evalInv_evaluate w n) w ic pc ctx dag h
    · exact (evalInv_evaluate w (n + 1) (.content ic pc) ctx dag).2.2 h

/-- Witness for C3: with the error flag pre-set, `$<1:x>` evaluates to the
    empty string (not `x`) and the flag stays set. -/
theorem c3_witness :
    (evaluate trivialWorld 2 (.content [.text "1"] [[.text "x"]]) ctxErr none).1 = "" ∧
    (evaluate trivialWorld 2 (.content [.text "1"] [[.text "x"]]) ctxErr none).2.hadError
      = true :=
  (c3_had_error_sticky trivialWorld).2 1 [.text "1"] [[.text "x"]] ctxErr none rfl

/-- Claim C6: the had-context-sensitive-condition flag of an evaluation is
    set exactly when it was set on entry or at least one primary
    context-sensitive site was executed during the evaluation - the ghost
    event counter `cscEvents` is incremented precisely at the
    `HadContextSensitiveCondition = true` assignments of
    `ConfigurationNode::Evaluate` (serving `$<CONFIG>` and its
    `$<CONFIGURATION>` alias), `ConfigurationTestNode::Evaluate`
    (`$<CONFIG:...>`), `TargetPolicyNode::Evaluate` (`$<TARGET_POLICY:...>`)
    and the link-interface-dependent property consultations of
    `TargetPropertyNode::Evaluate`, while the two propagation sites carry the
    events of the sub-context of a transitively parsed expression into the
    outer context.  The second conjunct records that events never vanish. -/
theorem c6_context_sensitive_iff (w : World) (n : Nat) (e : GenExEvaluator)
    (ctx : Ctx) (dag : Option DagChecker) :
    ((evaluate w n e ctx dag).2.hadContextSensitiveCondition = true ↔
      (ctx.hadContextSensitiveCondition = true ∨
        ctx.cscEvents < (evaluate w n e ctx dag).2.cscEvents)) ∧
    ctx.cscEvents ≤ (evaluate w n e ctx dag).2.cscEvents :=
  ⟨(evalInv_evaluate w n e ctx dag).1, (evalInv_evaluate w n e ctx dag).2.1⟩

/-- Claim C9: for the two nodes that do not generate content, expect one
    parameter and accept arbitrary content (`$<0:...>` and
    `$<INSTALL_INTERFACE:...>`), the driver returns the empty string without
    evaluating any parameter child - for every parameter-children list,
    including ones containing fatal sub-expressions, the context comes back
    unchanged; the only fatal condition is the complete absence of a
    parameter. -/
theorem c9_non_generating_nodes (w : World) :
    (∀ (n : Nat) (pc : List (List GenExEvaluator)) (ctx : Ctx)
        (dag : Option DagChecker), pc ≠ [] →
      evaluate w (n + 2) (.content [.text "0"] pc) ctx dag = ("", ctx)) ∧
    (∀ (n : Nat) (pc : List (List GenExEvaluator)) (ctx : Ctx)
        (dag : Option DagChecker), pc ≠ [] →
      evaluate w (n + 2) (.content [.text "INSTALL_INTERFACE"] pc) ctx dag = ("", ctx)) ∧
    (∀ (n : Nat) (ctx : Ctx) (dag : Option DagChecker),
      evaluate w (n + 2) (.content [.text "0"] []) ctx dag =
        if ctx.hadError then ("", ctx)
        else ("", reportError ctx "$<0> expression requires a parameter.")) ∧
    (∀ (n : Nat) (ctx : Ctx) (dag : Option DagChecker),
      evaluate w (n + 2) (.content [.text "INSTALL_INTERFACE"] []) ctx dag =
        if ctx.hadError then ("", ctx)
        else ("", reportError ctx
          "$<INSTALL_INTERFACE> expression requires a parameter.")) := by
  refine ⟨?_, ?_, ?_, ?_⟩
  · intro n pc ctx dag hpc
    have hpc' : pc.isEmpty = false := by
      cases pc with
      | nil => exact absurd rfl hpc
      | cons g rest => rfl
    rw [evaluate_succ_content]
    unfold contentEvaluateF
    rw [childConcatLoop_single_text dag "0" "" ctx rfl]
    by_cases hb : ctx.hadError = true
    · rw [if_pos hb]
    · rw [if_neg hb]
      show (if pc.isEmpty then
          ("", reportError ctx "$<0> expression requires a parameter.")
        else ("", ctx)) = ("", ctx)
      rw [hpc']
      rfl
  · intro n pc ctx dag hpc
    have hpc' : pc.isEmpty = false := by
      cases pc with
      | nil => exact absurd rfl hpc
      | cons g rest => rfl
    rw [evaluate_succ_content]
    unfold contentEvaluateF
    rw [childConcatLoop_single_text dag "INSTALL_INTERFACE" "" ctx rfl]
    by_cases hb : ctx.hadError = true
    · rw [if_pos hb]
    · rw [if_neg hb]
      show (if pc.isEmpty then
          ("", reportError ctx "$<INSTALL_INTERFACE> expression requires a parameter.")
        else ("", ctx)) = ("", ctx)
      rw [hpc']
      rfl
  · intro n ctx dag
    rw [evaluate_succ_content]
    unfold contentEvaluateF
    rw [childConcatLoop_single_text dag "0" "" ctx rfl]
    by_cases hb : ctx.hadError = true
    · rw [if_pos hb, if_pos hb]
    · rw [if_neg hb, if_neg hb]
      rfl
  · intro n ctx dag
    rw [evaluate_succ_content]
    unfold contentEvaluateF
    rw [childConcatLoop_single_text dag "INSTALL_INTERFACE" "" ctx rfl]
    by_cases hb : ctx.hadError = true
    · rw [if_pos hb, if_pos hb]
    · rw [if_neg hb, if_neg hb]
      rfl

/-- Claim C10: `$<LINK_ONLY:x>` reads the parent DAG checker unconditionally.
    With a frame present it returns `x` when the frame's
    transitive-properties-only flag is false and the empty string when the
    flag is true; with no frame the source dereferences a null pointer, so
    the embedding yields no result there, and the precondition that a frame
    is present is exactly what makes that branch unreachable. -/
theorem c10_link_only_dag_frame :
    (∀ (x : String) (rest : List String) (d : DagChecker),
      linkOnlyEvaluate (x :: rest) (some d)
        = some (if d.transitivePropertiesOnly then "" else x)) ∧
    (∀ params : List String, linkOnlyEvaluate params none = none) := by
  constructor
  · intro x rest d
    unfold linkOnlyEvaluate
    cases h : d.transitivePropertiesOnly <;> simp [h]
  · intro params
    rfl

/-- Counterexample to claim C4 as stated: `$<AND:0,abc>` returns "0" with no
    fatal error, although its second parameter is neither "0" nor "1" - the
    boolean-op loop returns at the first failure value and never validates
    the remaining parameters. -/
theorem c4_counterexample :
    andNodeEvaluate ["0", "abc"] ctx0 = ("0", ctx0) ∧
    (andNodeEvaluate ["0", "abc"] ctx0).2.hadError = false := ⟨rfl, rfl⟩

/-- All-success walk of the boolean-op loop. -/
theorem booleanOp_all_success (op sv fv : String) (pre : List String) (ctx : Ctx)
    (h : ∀ p ∈ pre, p = sv) (hsv : sv ≠ fv) :
    booleanOpEvaluate op sv fv pre ctx = (sv, ctx) := by
  induction pre with
  | nil => rfl
  | cons p rest ih =>
    have hp : p = sv := h p (List.mem_cons_self p rest)
    subst hp
    simp only [booleanOpEvaluate]
    rw [if_neg (by simpa using hsv)]
    rw [if_neg (by simp)]
    exact ih (fun q hq => h q (List.mem_cons_of_mem p hq))

/-- The first failure value ends the walk immediately with the failure
    value, skipping everything after it. -/
theorem booleanOp_first_failure (op sv fv : String) (pre post : List String) (ctx : Ctx)
    (h : ∀ p ∈ pre, p = sv) (hsv : sv ≠ fv) :
    booleanOpEvaluate op sv fv (pre ++ fv :: post) ctx = (fv, ctx) := by
  induction pre with
  | nil =>
    rw [List.nil_append]
    simp only [booleanOpEvaluate]
    rw [if_pos (by simp)]
  | cons p rest ih =>
    have hp : p = sv := h p (List.mem_cons_self p rest)
    subst hp
    rw [List.cons_append]
    simp only [booleanOpEvaluate]
    rw [if_neg (by simpa using hsv)]
    rw [if_neg (by simp)]
    exact ih (fun q hq => h q (List.mem_cons_of_mem p hq))

/-- A first invalid parameter (preceded only by success values) is fatal. -/
theorem booleanOp_first_invalid (op sv fv : String) (pre post : List String) (x : String)
    (ctx : Ctx) (h : ∀ p ∈ pre, p = sv) (hsv : sv ≠ fv) (hxf : x ≠ fv) (hxs : x ≠ sv) :
    booleanOpEvaluate op sv fv (pre ++ x :: post) ctx
      = ("", reportError ctx
          ("Parameters to $<" ++ op ++ "> must resolve to either 0 or 1.")) := by
  induction pre with
  | nil =>
    rw [List.nil_append]
    simp only [booleanOpEvaluate]
    rw [if_neg (by simpa using hxf)]
    rw [if_pos (by simpa using hxs)]
  | cons p rest ih =>
    have hp : p = sv := h p (List.mem_cons_self p rest)
    subst hp
    rw [List.cons_append]
    simp only [booleanOpEvaluate]
    rw [if_neg (by simpa using hsv)]
    rw [if_neg (by simp)]
    exact ih (fun q hq => h q (List.mem_cons_of_mem p hq))

/-- Claim C4 (amended): the driver still collects and evaluates all
    parameters before AND/OR runs, but inside the node validation proceeds
    left to right and stops at the first failure value - AND returns "0" at
    the first "0" without validating later parameters, is fatal at the first
    parameter that is neither "0" nor "1" when no "0" precedes it, and
    returns "1" when all parameters are "1"; dually for OR with "1" as the
    failure value and "0" as the success value. -/
theorem c4_and_or_validation :
    (∀ (pre : List String) (ctx : Ctx), (∀ p ∈ pre, p = "1") →
      andNodeEvaluate pre ctx = ("1", ctx)) ∧
    (∀ (pre post : List String) (ctx : Ctx), (∀ p ∈ pre, p = "1") →
      andNodeEvaluate (pre ++ "0" :: post) ctx = ("0", ctx)) ∧
    (∀ (pre post : List String) (x : String) (ctx : Ctx), (∀ p ∈ pre, p = "1") →
      x ≠ "0" → x ≠ "1" →
      andNodeEvaluate (pre ++ x :: post) ctx
        = ("", reportError ctx "Parameters to $<AND> must resolve to either 0 or 1.")) ∧
    (∀ (pre : List String) (ctx : Ctx), (∀ p ∈ pre, p = "0") →
      orNodeEvaluate pre ctx = ("0", ctx)) ∧
    (∀ (pre post : List String) (ctx : Ctx), (∀ p ∈ pre, p = "0") →
      orNodeEvaluate (pre ++ "1" :: post) ctx = ("1", ctx)) ∧
    (∀ (pre post : List String) (x : String) (ctx : Ctx), (∀ p ∈ pre, p = "0") →
      x ≠ "1" → x ≠ "0" →
      orNodeEvaluate (pre ++ x :: post) ctx
        = ("", reportError ctx "Parameters to $<OR> must resolve to either 0 or 1.")) := by
  refine ⟨?_, ?_, ?_, ?_, ?_, ?_⟩
  · intro pre ctx h
    exact booleanOp_all_success "AND" "1" "0" pre ctx h (by decide)
  · intro pre post ctx h
    exact booleanOp_first_failure "AND" "1" "0" pre post ctx h (by decide)
  · intro pre post x ctx h hxf hxs
    exact booleanOp_first_invalid "AND" "1" "0" pre post x ctx h (by decide) hxf hxs
  · intro pre ctx h
    exact booleanOp_all_success "OR" "0" "1" pre ctx h (by decide)
  · intro pre post ctx h
    exact booleanOp_first_failure "OR" "0" "1" pre post ctx h (by decide)
  · intro pre post x ctx h hxf hxs
    exact booleanOp_first_invalid "OR" "0" "1" pre post x ctx h (by decide) hxf hxs

/-- Witness for the amended C4: `$<AND:1,abc>` is fatal, `$<OR:0,1,junk>`
    returns "1" without validating `junk`. -/
theorem c4_witness :
    andNodeEvaluate ["1", "abc"] ctx0
      = ("", reportError ctx0 "Parameters to $<AND> must resolve to either 0 or 1.") ∧
    orNodeEvaluate (["0"] ++ "1" :: ["junk"]) ctx0 = ("1", ctx0) :=
  ⟨c4_and_or_validation.2.2.1 ["1"] ["abc"] "abc" ctx0 (by simp) (by decide) (by decide),
   c4_and_or_validation.2.2.2.2.1 ["0"] ["junk"] ctx0 (by simp)⟩

/-- Counterexample to claim C5 as stated: `$<PLATFORM_ID:linu-x>` has a
    parameter that does not match `[A-Za-z0-9_]*`, yet no fatal error is
    reported and "0" is returned; and `$<PLATFORM_ID:LINUX>` matches the
    stored id `Linux` only case-insensitively under an OLD CMP0044 yet still
    returns "0": PlatformIdNode has neither the validator nor the policy
    fallback the claim ascribes to it. -/
theorem c5_counterexample :
    (matchIdentRegex "linu-x" = false ∧
      platformIdNodeEvaluate platformWorld ["linu-x"] ctx0 = ("0", ctx0) ∧
      (platformIdNodeEvaluate platformWorld ["linu-x"] ctx0).2.hadError = false) ∧
    (platformWorld.policyStatusCMP0044 = .old ∧
      strCaseEq "LINUX" (platformWorld.getSafeDefinition "CMAKE_SYSTEM_NAME") = true ∧
      platformIdNodeEvaluate platformWorld ["LINUX"] ctx0 = ("0", ctx0)) := by
  exact ⟨⟨by decide, rfl, rfl⟩, ⟨rfl, by decide, rfl⟩⟩

/-- Claim C5 (amended): for `$<C_COMPILER_ID:X>` and `$<CXX_COMPILER_ID:X>`
    the claim holds as stated - the parameter must match `[A-Za-z0-9_]*`
    (otherwise fatal), an exact match yields "1", a case-insensitive-only
    match yields "1" under CMP0044 OLD or WARN (with the author warning
    under WARN) and "0" under NEW, and anything else yields "0" - but
    `$<PLATFORM_ID:X>` only performs a plain case-sensitive comparison with
    no validation and no policy fallback. -/
theorem c5_compiler_platform_id (w : World) (ctx : Ctx) (x lang : String) :
    (matchIdentRegex x = false →
      compilerIdEvaluateWithLanguage w [x] ctx lang
        = ("", reportError ctx "Expression syntax not recognized.")) ∧
    (matchIdentRegex x = true →
      x = w.getSafeDefinition ("CMAKE_" ++ lang ++ "_COMPILER_ID") →
      compilerIdEvaluateWithLanguage w [x] ctx lang = ("1", ctx)) ∧
    (matchIdentRegex x = true →
      x ≠ w.getSafeDefinition ("CMAKE_" ++ lang ++ "_COMPILER_ID") →
      strCaseEq x (w.getSafeDefinition ("CMAKE_" ++ lang ++ "_COMPILER_ID")) = true →
      compilerIdEvaluateWithLanguage w [x] ctx lang
        = (match w.policyStatusCMP0044 with
           | .warn => ("1", addWarning ctx)
           | .old => ("1", ctx)
           | .new | .requiredAlways | .requiredIfUsed => ("0", ctx))) ∧
    (matchIdentRegex x = true →
      strCaseEq x (w.getSafeDefinition ("CMAKE_" ++ lang ++ "_COMPILER_ID")) = false →
      compilerIdEvaluateWithLanguage w [x] ctx lang = ("0", ctx)) ∧
    (ctx.headTarget ≠ none →
      cCompilerIdNodeEvaluate w [x] ctx = compilerIdEvaluateWithLanguage w [x] ctx "C") ∧
    (ctx.headTarget ≠ none →
      cxxCompilerIdNodeEvaluate w [x] ctx = compilerIdEvaluateWithLanguage w [x] ctx "CXX") ∧
    (platformIdNodeEvaluate w [x] ctx
      = (if x == w.getSafeDefinition "CMAKE_SYSTEM_NAME" then "1" else "0", ctx)) := by
  refine ⟨?_, ?_, ?_, ?_, ?_, ?_, ?_⟩
  · intro hre
    unfold compilerIdEvaluateWithLanguage
    simp [hre]
  · intro hre hx
    subst hx
    unfold compilerIdEvaluateWithLanguage
    simp [hre]
  · intro hre hx hcase
    unfold compilerIdEvaluateWithLanguage
    simp only [hre, Bool.not_true, Bool.false_eq_true, if_false]
    rw [if_neg (by simpa using hx)]
    rw [if_pos hcase]
  · intro hre hcase
    have hx : x ≠ w.getSafeDefinition ("CMAKE_" ++ lang ++ "_COMPILER_ID") := by
      intro h
      rw [h] at hcase
      simp [strCaseEq] at hcase
    unfold compilerIdEvaluateWithLanguage
    simp only [hre, Bool.not_true, Bool.false_eq_true, if_false]
    rw [if_neg (by simpa using hx)]
    rw [if_neg (by simp [hcase])]
  · intro hh
    unfold cCompilerIdNodeEvaluate
    cases h : ctx.headTarget with
    | none => exact absurd h hh
    | some t => rfl
  · intro hh
    unfold cxxCompilerIdNodeEvaluate
    cases h : ctx.headTarget with
    | none => exact absurd h hh
    | some t => rfl
  · rfl

/-- Witness for the amended C5: the stored C compiler id `GNU` matched
    case-insensitively by `gnu` yields "1" under CMP0044 OLD, and
    `$<PLATFORM_ID:Linux>` matches exactly. -/
theorem c5_witness :
    compilerIdEvaluateWithLanguage platformWorld ["gnu"] ctx0 "C" = ("1", ctx0) ∧
    platformIdNodeEvaluate platformWorld ["Linux"] ctx0 = ("1", ctx0) := by
  constructor
  · have h := (c5_compiler_platform_id platformWorld ctx0 "gnu" "C").2.2.1
      (by decide) (by decide) (by decide)
    rw [h]
    rfl
  · have h := (c5_compiler_platform_id platformWorld ctx0 "Linux" "C").2.2.2.2.2.2
    rw [h]
    rfl

/-- Claim C7: `$<EQUAL:a,b>` parses each argument as an integer accepting
    decimal, hex (`0x`), octal (leading 0) and binary (optional sign then a
    `0b`/`0B` marker stripped before base-2 parsing), returns "1" exactly
    when the two integers are equal, and a parse with no conversion,
    trailing characters or an out-of-range value is a fatal error; in
    particular `$<EQUAL:0x10,16>` is "1", `$<EQUAL:-0b11,-3>` is "1" and
    `$<EQUAL:abc,1>` is fatal. -/
theorem c7_equal_integer_parsing :
    (∀ (a b : String) (va vb : Int) (ctx : Ctx),
      equalParamParse a = some va → equalParamParse b = some vb →
      equalNodeEvaluate [a, b] ctx = (if va = vb then "1" else "0", ctx)) ∧
    (∀ (a b : String) (ctx : Ctx), equalParamParse a = none →
      equalNodeEvaluate [a, b] ctx
        = ("", reportError ctx ("$<EQUAL> parameter " ++ a ++ " is not a valid integer."))) ∧
    (∀ (a b : String) (va : Int) (ctx : Ctx), equalParamParse a = some va →
      equalParamParse b = none →
      equalNodeEvaluate [a, b] ctx
        = ("", reportError ctx ("$<EQUAL> parameter " ++ b ++ " is not a valid integer."))) ∧
    (equalParamParse "0x10" = some 16 ∧ equalParamParse "-0b11" = some (-3) ∧
      equalParamParse "abc" = none ∧ equalParamParse "010" = some 8 ∧
      equalParamParse "0x1A" = some 26 ∧ equalParamParse "+0b101" = some 5 ∧
      equalParamParse "16" = some 16 ∧ equalParamParse "12junk" = none ∧
      equalParamParse "9223372036854775807" = some 9223372036854775807 ∧
      equalParamParse "9223372036854775808" = none) ∧
    ((equalNodeEvaluate ["0x10", "16"] ctx0).1 = "1" ∧
      (equalNodeEvaluate ["-0b11", "-3"] ctx0).1 = "1" ∧
      (equalNodeEvaluate ["abc", "1"] ctx0).1 = "" ∧
      (equalNodeEvaluate ["abc", "1"] ctx0).2.hadError = true) := by
  refine ⟨?_, ?_, ?_, ?_, ?_⟩
  · intro a b va vb ctx ha hb
    unfold equalNodeEvaluate
    simp [ha, hb]
  · intro a b ctx ha
    unfold equalNodeEvaluate
    simp [ha]
  · intro a b va ctx ha hb
    unfold equalNodeEvaluate
    simp [ha, hb]
  · exact ⟨by decide, by decide, by decide, by decide, by decide, by decide, by decide,
      by decide, by decide, by decide⟩
  · exact ⟨by decide, by decide, by decide, by decide⟩

/-- A bailed-out child walk leaves the error flag set. -/
theorem childConcatLoop_none_hadError {ev : EvalFun} (dag : Option DagChecker)
    (cs : List GenExEvaluator) (acc : String) (ctx : Ctx)
    (h : (childConcatLoop ev dag cs acc ctx).1 = none) :
    (childConcatLoop ev dag cs acc ctx).2.hadError = true := by
  induction cs generalizing acc ctx with
  | nil => simp [childConcatLoop] at h
  | cons c rest ih =>
    simp only [childConcatLoop] at h ⊢
    cases hc : ev c ctx dag with
    | mk s ctx' =>
      rw [hc] at h
      dsimp only at h ⊢
      by_cases hb : ctx'.hadError = true
      · rw [if_pos hb]
        exact hb
      · rw [if_neg hb] at h ⊢
        exact ih _ _ h

/-- An error-free normal walk yields one parameter per group. -/
theorem evalGroupsF_length (ev : EvalFun) (dag : Option DagChecker)
    (gs : List (List GenExEvaluator)) (params : List String) (ctx : Ctx)
    (h : (evalGroupsF ev dag gs params ctx).2.hadError = false) :
    (evalGroupsF ev dag gs params ctx).1.length = params.length + gs.length := by
  induction gs generalizing params ctx with
  | nil => simp [evalGroupsF]
  | cons g rest ih =>
    simp only [evalGroupsF] at h ⊢
    cases hc : childConcatLoop ev dag g "" ctx with
    | mk o ctx' =>
      rw [hc] at h
      cases o with
      | none =>
        exfalso
        have hErr := childConcatLoop_none_hadError dag g "" ctx (by rw [hc])
        rw [hc] at hErr
        dsimp only at h hErr
        rw [hErr] at h
        exact Bool.true_eq_false.mp h
      | some sVal =>
        dsimp only at h ⊢
        rw [ih _ _ h]
        simp
        omega

/-- The counting loop of `EvaluateParameters`, split at the arbitrary-content
    diversion: with `counter + k = N` and no error during the first `k`
    normal groups, the loop evaluates exactly those `k` groups normally and
    hands the remaining groups to `ProcessArbitraryContent` as the final
    parameter. -/
theorem paramsLoop_split (ev : EvalFun) (w : World) (kind : NodeKind)
    (identifier : String) (dag : Option DagChecker)
    (hacc : kind.acceptsArbitraryContent = true) (N : Nat)
    (hN : kind.numExpectedParameters = (N : Int)) :
    ∀ (k : Nat) (pc : List (List GenExEvaluator)) (counter : Nat)
      (params : List String) (ctx : Ctx),
      counter + k = N → k < pc.length →
      (evalGroupsF ev dag (pc.take k) params ctx).2.hadError = false →
      paramsLoop w ev kind identifier dag pc counter params ctx
        = ((evalGroupsF ev dag (pc.take k) params ctx).1 ++
            [(processArbitraryContentF w ev kind identifier
                (evalGroupsF ev dag (pc.take k) params ctx).2 dag (pc.drop k)).1],
           (processArbitraryContentF w ev kind identifier
                (evalGroupsF ev dag (pc.take k) params ctx).2 dag (pc.drop k)).2,
           true) := by
  intro k
  induction k with
  | zero =>
    intro pc counter params ctx hcnt hlen hbail
    cases pc with
    | nil => simp at hlen
    | cons g rest =>
      have hcN : counter = N := by omega
      simp only [List.take_zero, evalGroupsF, List.drop_zero]
      simp only [paramsLoop]
      rw [if_pos (by rw [hacc, hN, hcN]; simp)]
  | succ k ih =>
    intro pc counter params ctx hcnt hlen hbail
    cases pc with
    | nil => simp at hlen
    | cons g rest =>
      have hne : counter ≠ N := by omega
      rw [List.take_succ_cons] at hbail
      rw [List.take_succ_cons, List.drop_succ_cons]
      simp only [paramsLoop]
      rw [if_neg (by
        rw [hacc, hN]
        simp only [Bool.true_and]
        intro hcontra
        exact hne (by exact_mod_cast of_decide_eq_true (by simpa using hcontra)))]
      simp only [evalGroupsF] at hbail ⊢
      cases hc : childConcatLoop ev dag g "" ctx with
      | mk o ctx' =>
        rw [hc] at hbail
        cases o with
        | none =>
          exfalso
          have hErr := childConcatLoop_none_hadError dag g "" ctx (by rw [hc])
          rw [hc] at hErr
          dsimp only at hbail hErr
          rw [hErr] at hbail
          exact Bool.true_eq_false.mp hbail
        | some sVal =>
          dsimp only at hbail ⊢
          have hlen' : k < rest.length := by
            simp only [List.length_cons] at hlen
            omega
          exact ih rest (counter + 1) (params ++ [sVal]) ctx' (by omega) hlen' hbail

/-- Claim C8: for a node that accepts arbitrary content with declared arity
    N, and at least N parameter groups, parameter groups 1..N-1 are
    evaluated normally in order and the N-th parameter is produced by
    `ProcessArbitraryContent` over all remaining groups (evaluating and
    concatenating every remaining child, a literal comma at each original
    group boundary), so the resulting parameter list has exactly N entries;
    stated under the hypothesis that the first N-1 normal groups raise no
    error (an error inside them returns early with fewer parameters and the
    driver discards the evaluation). -/
theorem c8_arbitrary_content_parameters (ev : EvalFun) (w : World) (kind : NodeKind)
    (identifier : String) (dag : Option DagChecker) (N : Nat)
    (pc : List (List GenExEvaluator)) (ctx : Ctx)
    (hacc : kind.acceptsArbitraryContent = true)
    (hN : kind.numExpectedParameters = (N : Int)) (hN1 : 1 ≤ N) (hlen : N ≤ pc.length)
    (hbail : (evalGroupsF ev dag (pc.take (N - 1)) [] ctx).2.hadError = false) :
    evaluateParametersF w ev kind identifier pc ctx dag
      = ((evalGroupsF ev dag (pc.take (N - 1)) [] ctx).1 ++
          [(processArbitraryContentF w ev kind identifier
              (evalGroupsF ev dag (pc.take (N - 1)) [] ctx).2 dag (pc.drop (N - 1))).1],
         (processArbitraryContentF w ev kind identifier
              (evalGroupsF ev dag (pc.take (N - 1)) [] ctx).2 dag (pc.drop (N - 1))).2) ∧
    (evaluateParametersF w ev kind identifier pc ctx dag).1.length = N := by
  have hk : N - 1 < pc.length := by omega
  have hsplit := paramsLoop_split ev w kind identifier dag hacc N hN (N - 1)
    pc 1 [] ctx (by omega) hk hbail
  have heq : evaluateParametersF w ev kind identifier pc ctx dag
      = ((evalGroupsF ev dag (pc.take (N - 1)) [] ctx).1 ++
          [(processArbitraryContentF w ev kind identifier
              (evalGroupsF ev dag (pc.take (N - 1)) [] ctx).2 dag (pc.drop (N - 1))).1],
         (processArbitraryContentF w ev kind identifier
              (evalGroupsF ev dag (pc.take (N - 1)) [] ctx).2 dag (pc.drop (N - 1))).2) := by
    unfold evaluateParametersF
    rw [hsplit]
  refine ⟨heq, ?_⟩
  rw [heq]
  have hl1 := evalGroupsF_length ev dag (pc.take (N - 1)) [] ctx hbail
  simp only [List.length_append, List.length_singleton, hl1, List.length_nil,
    List.length_take]
  omega

/-- Witness for C8: `$<JOIN:a;b,X,Y>` (arity 2, arbitrary content) yields
    exactly the two parameters `a;b` and `X,Y`. -/
theorem c8_witness :
    (evaluateParametersF trivialWorld (fun e c d => evaluate trivialWorld 1 e c d)
      .join "JOIN" [[.text "a;b"], [.text "X"], [.text "Y"]] ctx0 none).1.length = 2 ∧
    evaluateParametersF trivialWorld (fun e c d => evaluate trivialWorld 1 e c d)
      .join "JOIN" [[.text "a;b"], [.text "X"], [.text "Y"]] ctx0 none
      = (["a;b", "X,Y"], ctx0) :=
  ⟨(c8_arbitrary_content_parameters (fun e c d => evaluate trivialWorld 1 e c d)
      trivialWorld .join "JOIN" none 2 [[.text "a;b"], [.text "X"], [.text "Y"]] ctx0
      rfl rfl (by decide) (by decide) (by decide)).2,
   by decide⟩

/-- Successful target resolution of the two-parameter
    `$<TARGET_PROPERTY:tgt,prop>` form, down to the property descent. -/
theorem targetPropertyNode_resolves (w : World) (ev : EvalFun) (ctx : Ctx)
    (dagParent : Option DagChecker) (tn p T : String)
    (htn : tn ≠ "") (hval : w.isValidTargetName tn = true)
    (halias : p ≠ "ALIASED_TARGET") (hfind : w.findTargetToUse tn = some T) :
    targetPropertyNodeEvaluateF w ev [tn, p] ctx dagParent
      = targetPropertyAfterResolve w ev T p (addAllTarget ctx T) dagParent := by
  unfold targetPropertyNodeEvaluateF
  rw [if_neg (by simp)]
  dsimp only
  rw [if_neg (by simp [htn])]
  rw [if_neg (by simp [htn])]
  rw [if_neg (by simp [hval])]
  rw [if_neg (by simp [halias])]
  rw [hfind]

/-- The property descent after a valid property name that is not
    `LINKER_LANGUAGE`: bookkeeping, frame push, and the check switch. -/
theorem targetPropertyAfterResolve_checked (w : World) (ev : EvalFun) (T p : String)
    (c : Ctx) (dagParent : Option DagChecker)
    (hre : matchPropRegex p = true) (hll : p ≠ "LINKER_LANGUAGE") :
    targetPropertyAfterResolve w ev T p c dagParent
      = (let c1 := if some T = c.headTarget then addSeenTargetProperty c p else c
         let dc := newDagChecker T p dagParent
         match w.dagCheck dc with
         | .selfReference => ("", reportError c1 "Self reference on target.")
         | .cyclicReference => ("", c1)
         | .alreadySeen =>
           if (transitiveWhitelist w).contains p then ("", c1)
           else targetPropertyContinueF w ev T p c1 dagParent dc
         | .dag => targetPropertyContinueF w ev T p c1 dagParent dc) := by
  have hp : p ≠ "" := by
    intro h
    subst h
    exact absurd hre (by decide)
  unfold targetPropertyAfterResolve
  dsimp only
  rw [if_neg (by simp [hp])]
  rw [if_neg (by simp [hre])]
  rw [if_neg (by simp [hll])]

/-- Whatever `POPULATE_INTERFACE_PROPERTY_NAME` finds is an `INTERFACE_`
    form of a transitive base name. -/
theorem populateInterfaceName_mem (p : String) (l : List String) (x : String)
    (h : populateInterfaceName p l = some x) :
    x ∈ l.map (fun b => "INTERFACE_" ++ b) := by
  induction l with
  | nil => simp [populateInterfaceName] at h
  | cons b rest ih =>
    simp only [populateInterfaceName] at h
    by_cases hc : (p == b || p == "INTERFACE_" ++ b) = true
    · rw [if_pos hc] at h
      cases h
      simp
    · rw [if_neg hc] at h
      simp only [List.map_cons, List.mem_cons]
      exact Or.inr (ih h)

/-- The cascade finds an entry for the `INTERFACE_` form of a member of the
    transitive base list. -/
theorem populateInterfaceName_found (l : List String) (b : String) (hb : b ∈ l) :
    ∃ x, populateInterfaceName ("INTERFACE_" ++ b) l = some x := by
  induction l with
  | nil => cases hb
  | cons a rest ih =>
    simp only [populateInterfaceName]
    by_cases hc : (("INTERFACE_" ++ b) == a || ("INTERFACE_" ++ b) == "INTERFACE_" ++ a) = true
    · rw [if_pos hc]
      exact ⟨_, rfl⟩
    · rw [if_neg hc]
      cases hb with
      | head =>
        exact absurd (by simp) hc
      | tail _ hmem => exact ih hmem

/-- The interface property name computed for a whitelisted property is
    itself on the whitelist. -/
theorem computeInterfaceName_whitelisted (w : World) (base : String)
    (hb : base ∈ w.transitiveBase) :
    (transitiveWhitelist w).contains (computeInterfaceName w ("INTERFACE_" ++ base))
      = true := by
  unfold computeInterfaceName
  obtain ⟨x, hx⟩ := populateInterfaceName_found w.transitiveBase base hb
  rw [hx]
  have hmem := populateInterfaceName_mem _ _ _ hx
  unfold transitiveWhitelist
  exact List.elem_eq_true_of_mem hmem

/-- A whitelisted property name is contained in the whitelist table. -/
theorem transitiveWhitelist_contains (w : World) (base : String)
    (hb : base ∈ w.transitiveBase) :
    (transitiveWhitelist w).contains ("INTERFACE_" ++ base) = true := by
  unfold transitiveWhitelist
  exact List.elem_eq_true_of_mem (List.mem_map_of_mem _ hb)

/-- Claim C2: the DAG-frame check outcome of `$<TARGET_PROPERTY:tgt,prop>`
    determines the result.  `SelfReference` is fatal (error flag set via the
    checker's report, empty string); `CyclicReference` returns the empty
    string silently (the context `c1` carries only the target/seen-property
    bookkeeping - its error flag and diagnostics equal the caller's, as the
    first conjunct states); `AlreadySeen` returns empty silently when the
    property is on the transitive whitelist and otherwise falls through to
    exactly the continuation the `DAG` outcome runs. -/
theorem c2_dag_check_outcomes (w : World) (ev : EvalFun) (ctx : Ctx)
    (dagParent : Option DagChecker) (tn p T : String)
    (htn : tn ≠ "") (hval : w.isValidTargetName tn = true)
    (halias : p ≠ "ALIASED_TARGET") (hfind : w.findTargetToUse tn = some T)
    (hre : matchPropRegex p = true) (hll : p ≠ "LINKER_LANGUAGE") :
    (let c := addAllTarget ctx T
     let c1 := if some T = c.headTarget then addSeenTargetProperty c p else c
     let dc := newDagChecker T p dagParent
     (c1.hadError = ctx.hadError ∧ c1.messages = ctx.messages) ∧
     (w.dagCheck dc = .selfReference →
       targetPropertyNodeEvaluateF w ev [tn, p] ctx dagParent
         = ("", reportError c1 "Self reference on target.")) ∧
     (w.dagCheck dc = .cyclicReference →
       targetPropertyNodeEvaluateF w ev [tn, p] ctx dagParent = ("", c1)) ∧
     (w.dagCheck dc = .alreadySeen → (transitiveWhitelist w).contains p = true →
       targetPropertyNodeEvaluateF w ev [tn, p] ctx dagParent = ("", c1)) ∧
     (w.dagCheck dc = .alreadySeen → (transitiveWhitelist w).contains p = false →
       targetPropertyNodeEvaluateF w ev [tn, p] ctx dagParent
         = targetPropertyContinueF w ev T p c1 dagParent dc) ∧
     (w.dagCheck dc = .dag →
       targetPropertyNodeEvaluateF w ev [tn, p] ctx dagParent
         = targetPropertyContinueF w ev T p c1 dagParent dc)) := by
  dsimp only
  have hres := targetPropertyNode_resolves w ev ctx dagParent tn p T htn hval halias hfind
  have hchk := targetPropertyAfterResolve_checked w ev T p (addAllTarget ctx T)
    dagParent hre hll
  dsimp only at hchk
  refine ⟨?_, ?_, ?_, ?_, ?_, ?_⟩
  · constructor
    · unfold addAllTarget addSeenTargetProperty
      repeat' split
      all_goals rfl
    · unfold addAllTarget addSeenTargetProperty
      repeat' split
      all_goals rfl
  · intro ho
    rw [hres, hchk, ho]
  · intro ho
    rw [hres, hchk, ho]
  · intro ho hwl
    rw [hres, hchk, ho]
    dsimp only
    rw [if_pos hwl]
  · intro ho hwl
    rw [hres, hchk, ho]
    dsimp only
    rw [if_neg (by rw [hwl]; exact Bool.false_ne_true)]
  · intro ho
    rw [hres, hchk, ho]

/-- Witness for C2: in a world whose DAG check reports a cyclic reference,
    the transitive read of scenario 5 returns the empty string with no
    error reported. -/
theorem c2_witness :
    targetPropertyNodeEvaluateF cyclicWorld (fun e c d => evaluate cyclicWorld 3 e c d)
      ["lib", "INTERFACE_COMPILE_DEFINITIONS"] ctx0 none
      = ("", addAllTarget ctx0 "lib") ∧
    (targetPropertyNodeEvaluateF cyclicWorld (fun e c d => evaluate cyclicWorld 3 e c d)
      ["lib", "INTERFACE_COMPILE_DEFINITIONS"] ctx0 none).2.hadError = false := by
  have h := (c2_dag_check_outcomes cyclicWorld (fun e c d => evaluate cyclicWorld 3 e c d)
    ctx0 none "lib" "INTERFACE_COMPILE_DEFINITIONS" "lib"
    (by decide) (by decide) (by decide) (by decide) (by decide) (by decide)).2.2.1 (by decide)
  refine ⟨?_, ?_⟩
  · rw [h]
    decide
  · rw [h]
    decide

/-- Claim C1: for a transitive-whitelisted property `p = INTERFACE_<base>`
    read through `$<TARGET_PROPERTY:tn,p>` on the resolved target `T`, with
    the frame check proceeding (`DAG`), no link-libraries parent role and no
    number-kind link-interface consultation for `p`: when the raw property is
    present its parse is re-evaluated under the new DAG frame with head =
    head target and current = `T`, and the result is that value `;`-joined
    (skipping empty sides) with the transitive content - the compiled
    evaluation of the synthesized `$<TARGET_PROPERTY:t,ipn>` reads over `T`'s
    transitive property targets, self excluded, with empty list elements
    stripped; when the raw property is absent on an imported or
    interface-library target, only the stripped transitive content is
    returned. -/
theorem c1_target_property_transitive (w : World) (ev : EvalFun) (ctx : Ctx)
    (dagParent : Option DagChecker) (tn base p T : String)
    (hbase : base ∈ w.transitiveBase) (hp : p = "INTERFACE_" ++ base)
    (htn : tn ≠ "") (hval : w.isValidTargetName tn = true)
    (halias : p ≠ "ALIASED_TARGET") (hll : p ≠ "LINKER_LANGUAGE")
    (hre : matchPropRegex p = true)
    (hfind : w.findTargetToUse tn = some T)
    (hdag : w.dagCheck (newDagChecker T p dagParent) = .dag)
    (hparentLL : dagEvaluatingLinkLibraries dagParent = false)
    (hmin : ∀ cfg, w.isLinkInterfaceDependentNumberMinProperty T p cfg = false)
    (hmax : ∀ cfg, w.isLinkInterfaceDependentNumberMaxProperty T p cfg = false) :
    (let c := addAllTarget ctx T
     let c1 := if some T = c.headTarget then addSeenTargetProperty c p else c
     let dc := newDagChecker T p dagParent
     let ipn := computeInterfaceName w p
     let head := c1.headTarget.getD T
     let tgts := w.transitivePropertyTargets T c1.config head
     let linkedPair := if !tgts.isEmpty then
         getLinkedTargetsContentF ev tgts T head c1 dc ipn
       else ("", c1)
     let linked := stripEmptyListElements linkedPair.1
     (∀ raw, w.getProperty T p = some raw →
       (targetPropertyNodeEvaluateF w ev [tn, p] ctx dagParent).1
         = (let own := (evaluateCompiledF ev (w.parse raw) linkedPair.2.config
               linkedPair.2.quiet (some head) (some T) (some dc)).1
            if !linked.isEmpty then own ++ (if own.isEmpty then "" else ";") ++ linked
            else own)) ∧
     (w.getProperty T p = none →
       (w.isImported T = true ∨ w.targetType T = .interfaceLibrary) →
       (targetPropertyNodeEvaluateF w ev [tn, p] ctx dagParent).1 = linked)) := by
  dsimp only
  have hres := targetPropertyNode_resolves w ev ctx dagParent tn p T htn hval halias hfind
  have hchk := targetPropertyAfterResolve_checked w ev T p (addAllTarget ctx T)
    dagParent hre hll
  dsimp only at hchk
  have hwlp : (transitiveWhitelist w).contains p = true := by
    rw [hp]
    exact transitiveWhitelist_contains w base hbase
  have hwlipn : (transitiveWhitelist w).contains (computeInterfaceName w p) = true := by
    rw [hp]
    exact computeInterfaceName_whitelisted w base hbase
  have hcont : targetPropertyNodeEvaluateF w ev [tn, p] ctx dagParent
      = targetPropertyMainF w ev T p
          (if some T = (addAllTarget ctx T).headTarget
           then addSeenTargetProperty (addAllTarget ctx T) p else addAllTarget ctx T)
          dagParent (newDagChecker T p dagParent) := by
    rw [hres, hchk, hdag]
    unfold targetPropertyContinueF
    cases dagParent with
    | none => rfl
    | some d =>
      have hd : d.evaluatingLinkLibraries = false := by
        simpa [dagEvaluatingLinkLibraries] using hparentLL
      dsimp only
      rw [if_neg (by rw [hd]; exact Bool.false_ne_true)]
  rw [hcont]
  unfold targetPropertyMainF
  dsimp only
  have hlinked : targetPropertyLinkedContent w ev T p (computeInterfaceName w p)
      ((if some T = (addAllTarget ctx T).headTarget
        then addSeenTargetProperty (addAllTarget ctx T) p
        else addAllTarget ctx T).headTarget.getD T)
      (if some T = (addAllTarget ctx T).headTarget
       then addSeenTargetProperty (addAllTarget ctx T) p else addAllTarget ctx T)
      (newDagChecker T p dagParent)
      = (if !(w.transitivePropertyTargets T
            (if some T = (addAllTarget ctx T).headTarget
             then addSeenTargetProperty (addAllTarget ctx T) p
             else addAllTarget ctx T).config
            ((if some T = (addAllTarget ctx T).headTarget
              then addSeenTargetProperty (addAllTarget ctx T) p
              else addAllTarget ctx T).headTarget.getD T)).isEmpty then
          getLinkedTargetsContentF ev
            (w.transitivePropertyTargets T
              (if some T = (addAllTarget ctx T).headTarget
               then addSeenTargetProperty (addAllTarget ctx T) p
               else addAllTarget ctx T).config
              ((if some T = (addAllTarget ctx T).headTarget
                then addSeenTargetProperty (addAllTarget ctx T) p
                else addAllTarget ctx T).headTarget.getD T)) T
            ((if some T = (addAllTarget ctx T).headTarget
              then addSeenTargetProperty (addAllTarget ctx T) p
              else addAllTarget ctx T).headTarget.getD T)
            (if some T = (addAllTarget ctx T).headTarget
             then addSeenTargetProperty (addAllTarget ctx T) p
             else addAllTarget ctx T)
            (newDagChecker T p dagParent) (computeInterfaceName w p)
         else ("",
           if some T = (addAllTarget ctx T).headTarget
           then addSeenTargetProperty (addAllTarget ctx T) p
           else addAllTarget ctx T)) := by
    unfold targetPropertyLinkedContent
    rw [if_pos hwlp]
  rw [hlinked]
  constructor
  · intro raw hraw
    rw [hraw]
    dsimp only
    by_cases hcond : (!w.isImported T ∧ dagParent.isSome ∧
        !dagEvaluatingLinkLibraries dagParent)
    · rw [if_pos hcond]
      rw [hmin, hmax]
      simp only [Bool.false_eq_true, if_false]
      unfold targetPropertyFinishF
      rw [if_pos hwlipn]
    · rw [if_neg hcond]
      unfold targetPropertyFinishF
      rw [if_pos hwlipn]
  · intro hnone himp
    rw [hnone]
    dsimp only
    rw [if_pos (by
      rcases himp with h | h
      · simp [h]
      · simp [h])]

/-- Witness for C1: spec scenario 5 - `lib` with own value `FOO` and one
    transitive target `libdep` carrying `BAR` yields `FOO;BAR`. -/
theorem c1_witness :
    (targetPropertyNodeEvaluateF scenario5World
      (fun e c d => evaluate scenario5World 3 e c d)
      ["lib", "INTERFACE_COMPILE_DEFINITIONS"] ctx0 none).1 = "FOO;BAR" := by
  have h := (c1_target_property_transitive scenario5World
    (fun e c d => evaluate scenario5World 3 e c d) ctx0 none
    "lib" "COMPILE_DEFINITIONS" "INTERFACE_COMPILE_DEFINITIONS" "lib"
    (by decide) rfl (by decide) (by decide) (by decide) (by decide) (by decide)
    (by decide) (by decide) (by decide) (fun cfg => rfl) (fun cfg => rfl)).1
    "FOO" (by decide)
  rw [h]
  decide

/-- Witness for C7: the general equality case applied at `0x10` and `16`. -/
theorem c7_witness : equalNodeEvaluate ["0x10", "16"] ctx0 = ("1", ctx0) := by
  have h := c7_equal_integer_parsing.1 "0x10" "16" 16 16 ctx0 (by decide) (by decide)
  rw [h]
  rfl

/-- Witness for C9: `$<0:$<NOSUCH>>` returns empty with the context
    untouched although its parameter would be a fatal unknown expression,
    and `$<0>` (no parameter) is fatal. -/
theorem c9_witness :
    evaluate trivialWorld 2 (.content [.text "0"] [[.content [.text "NOSUCH"] []]])
      ctx0 none = ("", ctx0) ∧
    (evaluate trivialWorld 2 (.content [.text "0"] []) ctx0 none).2.hadError = true := by
  constructor
  · exact (c9_non_generating_nodes trivialWorld).1 0
      [[.content [.text "NOSUCH"] []]] ctx0 none (by simp)
  · have h := ((c9_non_generating_nodes trivialWorld).2.2.1) 0 ctx0 none
    rw [h]
    simp [ctx0, freshCtx, reportError_hadError]

end CMakeGenExpr
